import Mathlib

/-!
Verification of the layered web-extraction pipeline of the `autoscrape`
repository against its natural-language specification.

The Python source is shallowly embedded: pure functions become Lean
functions; the external collaborators named by the spec (HTTP fetcher,
headless browser, HTML parsing library, `json.loads`, base64 decoding,
the LLM service) are passed in as explicit oracle parameters, exactly at
the call sites where the source invokes them.  Python `dict`s are
insertion-ordered association lists with last-write-wins updates, Python
numbers are `Int` (ints) and `Rat` (floats, idealised as exact
rationals), and a Python function that can raise is embedded with
`Option`/`Except`.
-/

namespace AutoScrape

/-! ## Basic string and association-list utilities -/

/-- The opening brace character (written via its code point so that no
brace literal appears inside a string). -/
def braceOpen : Char := Char.ofNat 123

/-- The closing brace character. -/
def braceClose : Char := Char.ofNat 125

/-- Does `pat` match at the head of `hay`? -/
def chMatchAt : List Char → List Char → Bool
  | [], _ => true
  | _ :: _, [] => false
  | p :: ps, c :: cs => p == c && chMatchAt ps cs

/-- Does `hay` contain `pat` as a contiguous sublist?  Embeds Python's
substring operator `in` on `str`. -/
def chHasSub (hay pat : List Char) : Bool :=
  match hay with
  | [] => pat.isEmpty
  | _ :: rest => chMatchAt pat hay || chHasSub rest pat

/-- Python `pat in hay` for strings. -/
def strContains (hay pat : String) : Bool :=
  chHasSub hay.toList pat.toList

/-- Python `str.lower()` (ASCII case folding). -/
def strLower (s : String) : String :=
  String.mk (s.toList.map Char.toLower)

/-- Python whitespace characters as used by `str.strip` and the regex
class `\s`. -/
def isWsChar (c : Char) : Bool :=
  c = ' ' || c = '\t' || c = '\n' || c = '\r' || c = '\x0b' || c = '\x0c'

/-- Python `str.strip()`. -/
def strStrip (s : String) : String :=
  String.mk ((s.toList.dropWhile isWsChar).reverse.dropWhile isWsChar |>.reverse)

/-- One replacement pass used to embed Python `str.replace`: replaces every
occurrence of `pat` (non-overlapping, left to right) by `rep`.  Fueled by
the input length so the recursion is structural. -/
def replAllAux (pat rep : List Char) : Nat → List Char → List Char
  | _, [] => []
  | 0, cs => cs
  | Nat.succ n, c :: cs =>
    if !pat.isEmpty && chMatchAt pat (c :: cs) then
      rep ++ replAllAux pat rep n ((c :: cs).drop pat.length)
    else
      c :: replAllAux pat rep n cs

/-- Python `s.replace(pat, rep)`. -/
def strReplace (s pat rep : String) : String :=
  String.mk (replAllAux pat.toList rep.toList s.toList.length s.toList)

/-- Lookup in an insertion-ordered association list (Python `dict`
access / `dict.get`). -/
def lookupAssoc (m : List (String × α)) (k : String) : Option α :=
  (m.find? (fun kv => kv.1 == k)).map (·.2)

/-- Python `dict` assignment `m[k] = v`: overwrites in place if the key
exists, else appends (insertion order preserved). -/
def updAssoc (k : String) (v : α) : List (String × α) → List (String × α)
  | [] => [(k, v)]
  | (k0, v0) :: rest =>
    if k0 == k then (k0, v) :: rest else (k0, v0) :: updAssoc k v rest

/-- First-occurrence deduplication.  Models `list(set(xs))` for string
lists; CPython's set iteration order is unspecified, we fix the
first-occurrence order. -/
def dedupAux (seen : List String) : List String → List String
  | [] => []
  | x :: rest =>
    if seen.contains x then dedupAux seen rest
    else x :: dedupAux (x :: seen) rest

def dedupFirst (xs : List String) : List String := dedupAux [] xs

/-! ## JSON values

The result type of Python's `json.loads`.  Python distinguishes JSON
integers (`int`) from JSON decimals (`float`); floats are idealised as
exact rationals. -/

inductive JVal where
  | null
  | bool (b : Bool)
  | int (n : Int)
  | flt (q : Rat)
  | str (s : String)
  | arr (elems : List JVal)
  | obj (fields : List (String × JVal))

/-- Python truthiness of a decoded JSON value. -/
def jTruthy : JVal → Bool
  | .null => false
  | .bool b => b
  | .int n => n != 0
  | .flt q => q != 0
  | .str s => s != ""
  | .arr xs => !xs.isEmpty
  | .obj fs => !fs.isEmpty

/-- `v == "lit"` in Python for a decoded JSON value `v`. -/
def jIsStr (v : JVal) (lit : String) : Bool :=
  match v with
  | .str t => t == lit
  | _ => false

/-- Field lookup on an object's field list. -/
def jGet (fs : List (String × JVal)) (k : String) : Option JVal :=
  lookupAssoc fs k

/-- Python `d.get(k, default)` where `d` may be any value: raises
`AttributeError` (modelled as `Except.error`) when `d` is not a dict. -/
def pyGetD (v : JVal) (k : String) (d : JVal) : Except Unit JVal :=
  match v with
  | .obj fs => .ok ((jGet fs k).getD d)
  | _ => .error ()

/-- Python iteration `for x in v` over a decoded JSON value: lists yield
their elements, strings their characters, dicts their keys; other types
raise `TypeError`. -/
def pyIter : JVal → Except Unit (List JVal)
  | .arr xs => .ok xs
  | .str s => .ok (s.toList.map (fun c => .str (String.mk [c])))
  | .obj fs => .ok (fs.map (fun kv => .str kv.1))
  | _ => .error ()

/-- Python list indexing `xs[i]` with a decoded JSON index: int indices
(negative ones wrap), bools count as 0/1, everything else raises
`TypeError`; out-of-range raises `IndexError`.  Both exceptions are
modelled as `none` (the call sites catch exactly these). -/
def pyIndex (xs : List JVal) (idx : JVal) : Option JVal :=
  match idx with
  | .int n =>
    if 0 ≤ n then xs.get? n.toNat
    else
      let m : Int := (xs.length : Int) + n
      if 0 ≤ m then xs.get? m.toNat else none
  | .bool b => xs.get? (if b then 1 else 0)
  | _ => none

/-! ## `modules/direct_request.py` -/

/-- A plain HTTP response as seen by `requests.get`. -/
structure HttpResp where
  status : Int
  contentType : String
  body : String

/-- The fixed probe list `COMMON_API_ENDPOINTS`. -/
def COMMON_API_ENDPOINTS : List String :=
  ["/api/data", "/api/v1/data", "/data.json", "/graphql", "/api/items",
   "/wp-json/wp/v2/posts", "/api/values", "/openapi.json", "/api/search",
   "/api/products"]

/-- `direct_request.request`: GET the URL (the `http` oracle returns
`none` on a network exception), and on HTTP 200 parse the body as JSON
(`jp` is the `json.loads` oracle) whether or not the content type claims
JSON; every failure path returns `None`. -/
def request (http : String → Option HttpResp) (jp : String → Option JVal)
    (u : String) : Option JVal :=
  match http u with
  | none => none
  | some r =>
    if r.status == 200 then
      if strContains (strLower r.contentType) "application/json" then jp r.body
      else jp r.body
    else none

/-- Python `s.startswith(pre)`. -/
def strStarts (s pre : String) : Bool := chMatchAt pre.toList s.toList

/-- The trailing-slash strip at the top of `try_common_endpoints`
(`base_url.endswith('/')` / `base_url[:-1]`). -/
def stripSlash (base : String) : String :=
  match base.toList.getLast? with
  | some '/' => String.mk base.toList.dropLast
  | _ => base

/-- The probe loop of `try_common_endpoints`: each suffix is tried bare
and then with `?page=1`; only truthy decoded data is returned. -/
def tryEndpointsLoop (http : String → Option HttpResp)
    (jp : String → Option JVal) (base : String) :
    List String → Option JVal
  | [] => none
  | e :: rest =>
    match request http jp (base ++ e) with
    | some d =>
      if jTruthy d then some d
      else
        match request http jp (base ++ e ++ "?page=1") with
        | some d2 =>
          if jTruthy d2 then some d2 else tryEndpointsLoop http jp base rest
        | none => tryEndpointsLoop http jp base rest
    | none =>
      match request http jp (base ++ e ++ "?page=1") with
      | some d2 =>
        if jTruthy d2 then some d2 else tryEndpointsLoop http jp base rest
      | none => tryEndpointsLoop http jp base rest

/-- `direct_request.try_common_endpoints`. -/
def try_common_endpoints (http : String → Option HttpResp)
    (jp : String → Option JVal) (base_url : String) : Option JVal :=
  let base := stripSlash base_url
  match request http jp base with
  | some d => if jTruthy d then some d else tryEndpointsLoop http jp base COMMON_API_ENDPOINTS
  | none => tryEndpointsLoop http jp base COMMON_API_ENDPOINTS

/-- Spec-side formulation of strategy 1 (direct-endpoint probing), from
the spec's words: the candidate URLs are the base URL itself and then
each fixed suffix bare and with a `?page=1` suffix, in order; the result
is the first candidate whose response parses as (truthy) JSON. -/
def directProbeCandidates (base : String) : List String :=
  base :: COMMON_API_ENDPOINTS.flatMap
    (fun e => [base ++ e, base ++ e ++ "?page=1"])

/-- First truthy JSON result along a candidate list. -/
def firstJsonHit (http : String → Option HttpResp)
    (jp : String → Option JVal) : List String → Option JVal
  | [] => none
  | u :: rest =>
    match request http jp u with
    | some d => if jTruthy d then some d else firstJsonHit http jp rest
    | none => firstJsonHit http jp rest

/-- Spec-side direct-endpoint probing. -/
def directProbeSpec (http : String → Option HttpResp)
    (jp : String → Option JVal) (base_url : String) : Option JVal :=
  firstJsonHit http jp (directProbeCandidates (stripSlash base_url))

theorem tryEndpointsLoop_eq_firstJsonHit (http : String → Option HttpResp)
    (jp : String → Option JVal) (base : String) (es : List String) :
    tryEndpointsLoop http jp base es =
      firstJsonHit http jp (es.flatMap (fun s => [base ++ s, base ++ s ++ "?page=1"])) := by
  induction es with
  | nil => rfl
  | cons e rest ih =>
    have hcands : ((e :: rest).flatMap (fun s => [base ++ s, base ++ s ++ "?page=1"]))
        = (base ++ e) :: (base ++ e ++ "?page=1") ::
            rest.flatMap (fun s => [base ++ s, base ++ s ++ "?page=1"]) := rfl
    rw [hcands]
    cases hreq : request http jp (base ++ e) with
    | none =>
      cases hreq2 : request http jp (base ++ e ++ "?page=1") with
      | none => simp only [tryEndpointsLoop, firstJsonHit, hreq, hreq2]; exact ih
      | some d2 =>
        by_cases h : jTruthy d2 = true
        · simp only [tryEndpointsLoop, firstJsonHit, hreq, hreq2, if_pos h]
        · simp only [tryEndpointsLoop, firstJsonHit, hreq, hreq2, if_neg h]; exact ih
    | some d =>
      by_cases h : jTruthy d = true
      · simp only [tryEndpointsLoop, firstJsonHit, hreq, if_pos h]
      · cases hreq2 : request http jp (base ++ e ++ "?page=1") with
        | none =>
          simp only [tryEndpointsLoop, firstJsonHit, hreq, hreq2, if_neg h]; exact ih
        | some d2 =>
          by_cases h2 : jTruthy d2 = true
          · simp only [tryEndpointsLoop, firstJsonHit, hreq, hreq2, if_neg h, if_pos h2]
          · simp only [tryEndpointsLoop, firstJsonHit, hreq, hreq2, if_neg h, if_neg h2]
            exact ih

/-- `try_common_endpoints` implements exactly the spec's probe order. -/
theorem try_common_endpoints_spec (http : String → Option HttpResp)
    (jp : String → Option JVal) (base_url : String) :
    try_common_endpoints http jp base_url = directProbeSpec http jp base_url := by
  have hcands : directProbeCandidates (stripSlash base_url)
      = (stripSlash base_url) :: (COMMON_API_ENDPOINTS.flatMap
          fun s => [stripSlash base_url ++ s, stripSlash base_url ++ s ++ "?page=1"]) := rfl
  rw [directProbeSpec, hcands]
  cases hreq : request http jp (stripSlash base_url) with
  | none =>
    simp only [try_common_endpoints, firstJsonHit, hreq]
    exact tryEndpointsLoop_eq_firstJsonHit http jp (stripSlash base_url) _
  | some d =>
    by_cases h : jTruthy d = true
    · simp only [try_common_endpoints, firstJsonHit, hreq, if_pos h]
    · simp only [try_common_endpoints, firstJsonHit, hreq, if_neg h]
      exact tryEndpointsLoop_eq_firstJsonHit http jp (stripSlash base_url) _

/-! ## `modules/anti_detect.py` and `modules/fallback.py` -/

/-- The fixed CAPTCHA indicator list of `detect_captcha`. -/
def captchaIndicators : List String :=
  ["g-recaptcha", "hcaptcha", "cf-turnstile", "arkose", "funcaptcha"]

/-- `anti_detect.detect_captcha`: substring search over the lowercased
HTML, first indicator wins; empty HTML yields no detection (the source
returns `False`, modelled as `none`). -/
def detect_captcha (html_content : String) : Option String :=
  if html_content == "" then none
  else captchaIndicators.find? (fun ind => strContains (strLower html_content) ind)

/-- `fallback.solve_captcha_external`: a documented placeholder that only
logs and unconditionally returns `None`. -/
def solve_captcha_external (_html_content _url _captcha_type : String) :
    Option JVal :=
  none

/-! ## `analysis.smart_dom_extract`

The HTML parsing library is an external collaborator, so its output is
embedded as data: `DomCard` is the parser's view of one candidate
element returned by `soup.find_all(["article", "div"], class_=...)`
(the tag name, the class attribute, the first `<a href=...>` descendant,
the first `h1/h2/h3/h4/strong` descendant and the element text), and
`DomPage` is the parser's view of a whole document. -/

structure DomCard where
  tag : String
  classAttr : Option String
  anchorHref : Option String
  anchorTitle : String
  anchorText : String
  heading : Option String
  text : String

structure DomPage where
  cards : List DomCard
  iframeSrcs : List String

/-- The class keywords of heuristic 1. -/
def cardClassKws : List String := ["item", "post", "card", "entry", "box"]

/-- The `find_all(["article", "div"], class_=lambda c: ...)` filter: tag
name `article` or `div` AND a truthy class attribute containing one of
the keywords (the class filter applies to both tag names). -/
def cardMatches (e : DomCard) : Bool :=
  (e.tag == "article" || e.tag == "div") &&
  (match e.classAttr with
   | some c => c != "" && cardClassKws.any (fun kw => strContains (strLower c) kw)
   | none => false)

/-- One extracted article entry (`id`, `judul`, `url`, `excerpt`). -/
structure ArticleEntry where
  id : Nat
  judul : String
  url : String
  excerpt : String

/-- The per-card body of the loop in `smart_dom_extract`: `index` is the
position in the truncated candidate list; returns `none` when both the
title and the href are empty (the entry is not appended). -/
def buildArticleEntry (index : Nat) (e : DomCard) : Option ArticleEntry :=
  let title0 := match e.heading with
    | some t => strStrip t
    | none => ""
  let title :=
    if title0 == "" && e.anchorHref.isSome then
      if e.anchorTitle != "" then e.anchorTitle else strStrip e.anchorText
    else title0
  let href := e.anchorHref.getD ""
  if title != "" || href != "" then
    some { id := index + 1, judul := title, url := href,
           excerpt := strReplace
             (String.mk ((strStrip e.text).toList.take 100)) "\\n" " " }
  else none

/-- The dictionary returned by `smart_dom_extract` (the `articles` and
`video_embeds` keys; an absent key and an empty list are identified). -/
structure DomData where
  articles : List ArticleEntry
  video_embeds : List String

/-- Python truthiness of the returned dict. -/
def domTruthy (d : DomData) : Bool :=
  !d.articles.isEmpty || !d.video_embeds.isEmpty

/-- `analysis.smart_dom_extract`: heuristic card extraction capped at 100
candidates, plus non-YouTube non-ad iframe sources.  `dom` is the
external parser's view of `html_content`. -/
def smart_dom_extract (html_content : String) (dom : DomPage) : DomData :=
  if html_content == "" then { articles := [], video_embeds := [] }
  else
    let cands := dom.cards.filter cardMatches
    let arts := ((cands.take 100).enum.filterMap
      (fun p => buildArticleEntry p.1 p.2))
    let vids := dom.iframeSrcs.filter
      (fun src => src != "" && !strContains src "youtube" && !strContains src "ads")
    { articles := arts, video_embeds := vids }

/-! ## `analysis.extract_inline_json`

`HtmlDoc` is the external parser's view of the document for this
function: the script elements (with their `type` attribute and their
`.string` content) and all tags with their attributes. -/

structure ScriptEl where
  stype : Option String
  sstring : Option String

structure TagEl where
  name : String
  attrs : List (String × String)

structure HtmlDoc where
  scripts : List ScriptEl
  allTags : List TagEl

/-- One element of the list returned by `extract_inline_json`
(`{"type": ..., "content": ...}`, plus `tag`/`attr` for data
attributes). -/
structure InlineItem where
  itype : String
  content : JVal
  tagName : String := ""
  attrName : String := ""

/-- Does the trimmed script text match `^\s*({.*}|\[.*\])\s*$` (DOTALL)?
I.e. after stripping surrounding whitespace the text is one brace- or
bracket-delimited block. -/
def pureObjShape (t : List Char) : Bool :=
  match t with
  | [] => false
  | [_] => false
  | c :: rest =>
    (c = braceOpen && rest.getLast? = some braceClose) ||
    (c = '[' && rest.getLast? = some ']')

/-- Characters allowed inside the flat parts of the fallback regex
(`[^{}]`). -/
def flatPred (c : Char) : Bool := c ≠ braceOpen && c ≠ braceClose

/-- Reads the tail of a depth-at-most-two brace block
`{[^{}]*({[^{}]*}[^{}]*)*}` after the opening brace and first flat part
have been consumed: `acc` holds the characters read so far.  Returns the
full block and the remaining input. -/
def readInnerGroups (fuel : Nat) (acc : List Char) (cs : List Char) :
    Option (List Char × List Char) :=
  match cs with
  | [] => none
  | c :: rest =>
    if c = braceClose then some (acc ++ [braceClose], rest)
    else if c = braceOpen then
      match fuel with
      | 0 => none
      | Nat.succ n =>
        let f2 := rest.takeWhile flatPred
        let r2 := rest.dropWhile flatPred
        match r2 with
        | c2 :: r3 =>
          if c2 = braceClose then
            let f3 := r3.takeWhile flatPred
            let r4 := r3.dropWhile flatPred
            readInnerGroups n
              (acc ++ [braceOpen] ++ f2 ++ [braceClose] ++ f3) r4
          else none
        | [] => none
    else none

/-- Reads a depth-at-most-two brace block at the head of the input. -/
def readBraceBlock (cs : List Char) : Option (List Char × List Char) :=
  match cs with
  | c :: rest =>
    if c = braceOpen then
      let f1 := rest.takeWhile flatPred
      let r1 := rest.dropWhile flatPred
      readInnerGroups rest.length ([braceOpen] ++ f1) r1
    else none
  | [] => none

/-- The lookahead `(?=;|\n|$)` after optional whitespace: some whitespace
may be skipped as long as the next character is `;` or a newline, or the
end of input is reached. -/
def endsOk (cs : List Char) : Bool :=
  match cs.dropWhile (fun c => isWsChar c && c ≠ '\n') with
  | [] => true
  | c :: _ => c = ';' || c = '\n'

/-- Scanner embedding the fallback regex
`(?<=(=|:)\s)\s*({[^{}]*({[^{}]*}[^{}]*)*})\s*(?=;|\n|$)` of part (b) of
`extract_inline_json`: candidate object literals preceded by `=` or `:`
plus whitespace and followed by `;`, a newline or the end.  Matches are
collected left to right, non-overlapping, as `re.findall` does. -/
def varScan (fuel : Nat) (cs : List Char) (acc : List String) : List String :=
  match fuel with
  | 0 => acc
  | Nat.succ n =>
    match cs with
    | [] => acc
    | c :: rest =>
      if c = '=' || c = ':' then
        match rest with
        | [] => acc
        | w :: r2 =>
          if isWsChar w then
            let r3 := r2.dropWhile isWsChar
            match readBraceBlock r3 with
            | some (blk, r4) =>
              if endsOk r4 then varScan n r4 (acc ++ [String.mk blk])
              else varScan n rest acc
            | none => varScan n rest acc
          else varScan n rest acc
      else varScan n rest acc

/-- The candidate strings produced by the fallback regex on one script. -/
def varJsonCandidates (s : String) : List String :=
  varScan s.toList.length s.toList []

/-- Part (a) of `extract_inline_json`: parse every
`<script type="application/ld+json">` body. -/
def inlineLdJson (jp : String → Option JVal) (doc : HtmlDoc) : List InlineItem :=
  doc.scripts.filterMap (fun sc =>
    if sc.stype == some "application/ld+json" then
      match sc.sstring with
      | some s =>
        match jp s with
        | some d => some { itype := "ld+json", content := d }
        | none => none
      | none => none
    else none)

/-- Part (b) of `extract_inline_json` for one script: a whole-body object
or array literal is parsed as `inline_script`; otherwise each fallback
regex candidate that parses is emitted as `variable_injection`. -/
def inlineScriptItems (jp : String → Option JVal) (sc : ScriptEl) :
    List InlineItem :=
  match sc.sstring with
  | none => []
  | some s =>
    if s != "" && (strContains s (String.mk [braceOpen]) || strContains s "[") then
      if pureObjShape (strStrip s).toList then
        match jp (strStrip s) with
        | some d => [{ itype := "inline_script", content := d }]
        | none => []
      else
        (varJsonCandidates s).filterMap (fun cand =>
          match jp cand with
          | some d => some { itype := "variable_injection", content := d }
          | none => none)
    else []

/-- Part (c) of `extract_inline_json`: every `data-*` attribute whose
value parses as JSON. -/
def inlineDataAttrs (jp : String → Option JVal) (doc : HtmlDoc) :
    List InlineItem :=
  doc.allTags.flatMap (fun el =>
    if el.attrs.any (fun kv => strStarts kv.1 "data-") then
      el.attrs.filterMap (fun kv =>
        if strStarts kv.1 "data-" && (jp kv.2).isSome then
          match jp kv.2 with
          | some d => some { itype := "data_attribute", content := d,
                             tagName := el.name, attrName := kv.1 }
          | none => none
        else none)
    else [])

/-- `analysis.extract_inline_json`.  The `target_keywords` parameter is
declared by the source but never read by the function body. -/
def extract_inline_json (jp : String → Option JVal) (html_content : String)
    (doc : HtmlDoc) (_target_keywords : List String) : List InlineItem :=
  if html_content == "" then []
  else
    inlineLdJson jp doc ++
    doc.scripts.flatMap (inlineScriptItems jp) ++
    inlineDataAttrs jp doc

/-! ## `analysis.extract_html_tables`

The parser's view of one `<table>`: its `<th>` texts, its `<tr>` rows
(each with the cell texts of its `td`/`th` children and a flag recording
whether the row's cell elements are exactly the table's `<th>` elements,
which is what `cols == th_elements` compares), and the table's visible
text used for the keyword-relevance check. -/

structure TableRow where
  cells : List String
  isThRow : Bool

structure HtmlTable where
  thTexts : List String
  rows : List TableRow
  fullText : String

/-- One element of the result list (`{"table_index": ..., "data": ...}`). -/
structure TableData where
  table_index : Nat
  data : List JVal

/-- `dict(zip(headers, row_data))`: later duplicate headers overwrite
earlier ones. -/
def zipToObj (headers cells : List String) : JVal :=
  .obj ((headers.zip cells).foldl (fun acc kv => updAssoc kv.1 (.str kv.2) acc) [])

/-- `analysis.extract_html_tables`: keyword-relevant tables become row
lists; rows are zipped with headers when the counts match, else kept as
plain cell lists. -/
def extract_html_tables (tablesView : List HtmlTable) (html_content : String)
    (target_keywords : List String) : List TableData :=
  if html_content == "" then []
  else
    tablesView.enum.filterMap (fun p =>
      let t := p.2
      let isRel := target_keywords.any
        (fun kw => strContains (strLower t.fullText) (strLower kw))
      if isRel then
        let tdata := t.rows.filterMap (fun row =>
          if row.cells.isEmpty || (!t.thTexts.isEmpty && row.isThRow) then none
          else if !t.thTexts.isEmpty && t.thTexts.length == row.cells.length then
            some (zipToObj t.thTexts row.cells)
          else some (.arr (row.cells.map .str)))
        if tdata.isEmpty then none
        else some { table_index := p.1, data := tdata }
      else none)

/-! ## `analysis.structure_gold_data` -/

/-- The output shape `{provider: {denomination-label: price-string}}`. -/
abbrev GoldMap := List (String × List (String × String))

def goldProviders : List String := ["Antam", "UBS", "Pegadaian", "Global", "Spot"]

/-- The local header-scan state of `process_table_rows`:
`provider_indices`, `satuan_idx` (`-1` modelled as `none`) and the
`structured` map being built. -/
structure GoldHeaderState where
  provIdx : List (String × Nat)
  satuan : Option Nat
  structured : GoldMap

/-- Header scan of one cell: remember a unit column
(`satuan`/`gram`/`berat`) and every provider column, initialising an
empty provider entry in `structured` on first sight. -/
def goldHeaderStep (st : GoldHeaderState) (p : Nat × JVal) : GoldHeaderState :=
  match p.2 with
  | .str col =>
    let colL := strLower col
    let st1 :=
      if strContains colL "satuan" || strContains colL "gram" ||
          strContains colL "berat" then
        { st with satuan := some p.1 }
      else st
    goldProviders.foldl (fun s pr =>
      if strContains colL (strLower pr) then
        { s with provIdx := updAssoc pr p.1 s.provIdx,
                 structured :=
                   if (lookupAssoc s.structured pr).isSome then s.structured
                   else s.structured ++ [(pr, [])] }
      else s) st1
  | _ => st

/-- The Python unit check:
`s.replace('.','').replace(',','').isdigit() or ('.' in s and s.replace('.','').isdigit())`. -/
def isSatuanNum (s : String) : Bool :=
  let c1 := s.toList.filter (fun c => c ≠ '.' && c ≠ ',')
  (!c1.isEmpty && c1.all Char.isDigit) ||
  (s.toList.contains '.' &&
    (let c2 := s.toList.filter (fun c => c ≠ '.')
     !c2.isEmpty && c2.all Char.isDigit))

/-- `structured[p][label] = price`; the provider entry is guaranteed to
exist (it was initialised during the header scan). -/
def goldUpd (m : GoldMap) (p label price : String) : GoldMap :=
  match lookupAssoc m p with
  | some sub => updAssoc p (updAssoc label price sub) m
  | none => m

/-- The per-provider loop of a data row.  Reading a non-string cell
raises `AttributeError` on `.strip()`, aborting the remaining providers
while keeping earlier writes (the `try` wraps the whole row block). -/
def goldRowProviders (row : List JVal) (satuanIdx : Nat) (satuanStr : String) :
    List (String × Nat) → GoldMap → GoldMap
  | [], m => m
  | (p, pidx) :: rest, m =>
    if pidx < row.length && pidx != satuanIdx then
      match row.get? pidx with
      | some (.str hs) =>
        let harga := strStrip hs
        let m2 :=
          if harga.toList.any Char.isDigit then
            goldUpd m p (satuanStr ++ " Gram") harga
          else m
        goldRowProviders row satuanIdx satuanStr rest m2
      | _ => m
    else goldRowProviders row satuanIdx satuanStr rest m

/-- One row of `process_table_rows`: header scan while `r_idx < 3` and no
unit column was found yet, then data processing once headers are known
and `r_idx >= 1`.  Non-list rows are skipped. -/
def goldRowStep (st : GoldHeaderState) (p : Nat × JVal) : GoldHeaderState :=
  match p.2 with
  | .arr row =>
    let st1 :=
      if p.1 < 3 && st.satuan.isNone then row.enum.foldl goldHeaderStep st
      else st
    if !st1.provIdx.isEmpty && st1.satuan.isSome && p.1 ≥ 1 then
      match st1.satuan with
      | some si =>
        match row.get? si with
        | some (.str s0) =>
          let satuanStr := strStrip s0
          if isSatuanNum satuanStr then
            { st1 with structured :=
                goldRowProviders row si satuanStr st1.provIdx st1.structured }
          else st1
        | _ => st1
      | none => st1
    else st1
  | _ => st

/-- `process_table_rows`: the closure mutating `structured` across one
table's rows. -/
def process_table_rows (structured : GoldMap) (rows : List JVal) : GoldMap :=
  (rows.enum.foldl goldRowStep
    { provIdx := [], satuan := none, structured := structured }).structured

/-- One reactive-array item: an object carrying `vendorName` /
`denomination` / `sellingPrice` index fields is dereferenced back into
strings; index errors are swallowed. -/
def goldVueItem (vueArr : List JVal) (m : GoldMap) (item : JVal) : GoldMap :=
  match item with
  | .obj fs =>
    match jGet fs "vendorName", jGet fs "denomination", jGet fs "sellingPrice" with
    | some vi, some di, some si =>
      match pyIndex vueArr vi, pyIndex vueArr di, pyIndex vueArr si with
      | some (.str vn), some (.str dn), some (.str sp) =>
        let m1 := if (lookupAssoc m vn).isSome then m else m ++ [(vn, [])]
        goldUpd m1 vn (dn ++ " Gram") sp
      | _, _, _ => m
    | _, _, _ => m
  | _ => m

/-- The Nuxt/Vue reactive-array path of `structure_gold_data` for one
inline script item. -/
def goldVueScript (m : GoldMap) (it : InlineItem) : GoldMap :=
  if it.itype == "inline_script" then
    match it.content with
    | .arr vueArr =>
      let gate :=
        match vueArr with
        | [] => false
        | v0 :: _ =>
          jIsStr v0 "Reactive" ||
          (vueArr.take 50).any (fun i =>
            match i with
            | .obj fs => (jGet fs "vendorName").isSome
            | _ => false)
      if gate then vueArr.foldl (goldVueItem vueArr) m else m
    | _ => m
  else m

/-! ## `analysis.structure_stock_data` -/

/-- Numeric value of a decoded JSON value for Python `dict`-key equality
(`True == 1 == 1.0` in Python). -/
def jKeyNum : JVal → Option Rat
  | .bool b => some (if b then 1 else 0)
  | .int n => some (n : Rat)
  | .flt q => some q
  | _ => none

/-- Python equality of hashable decoded JSON values, as used for dict
keys. -/
def jKeyEq (a b : JVal) : Bool :=
  match a, b with
  | .null, .null => true
  | .str s, .str t => s == t
  | _, _ =>
    match jKeyNum a, jKeyNum b with
    | some x, some y => x == y
    | _, _ => false

/-- Is the value usable as a Python dict key?  Lists and dicts are
unhashable (`TypeError`). -/
def jHashable : JVal → Bool
  | .arr _ => false
  | .obj _ => false
  | _ => true

/-- The `structured` dict of `structure_stock_data`, keyed by the raw
symbol value. -/
abbrev StockMap := List (JVal × JVal)

/-- Dict assignment on a `StockMap` (the original key object and its
position are kept on overwrite, as in CPython). -/
def updStock (m : StockMap) (k v : JVal) : StockMap :=
  match m with
  | [] => [(k, v)]
  | (k0, v0) :: rest =>
    if jKeyEq k0 k then (k0, v) :: rest else (k0, v0) :: updStock rest k v

/-- Round-half-to-even on rationals, the rounding of Python `round`. -/
def roundHalfEven (x : Rat) : Int :=
  let f := ⌊x⌋
  let frac := x - f
  if frac < 1/2 then f
  else if 1/2 < frac then f + 1
  else if f % 2 = 0 then f else f + 1

/-- `round(x, 4)` on a rational (floats idealised as exact rationals). -/
def round4 (x : Rat) : Rat := (roundHalfEven (x * 10000) : Rat) / 10000

/-- Python `round(v, 4)` on a decoded JSON value: ints are returned
unchanged, bools coerce to ints, floats are rounded; any other type
raises `TypeError` (`none`). -/
def pyRound4 : JVal → Option JVal
  | .int n => some (.int n)
  | .bool b => some (.int (if b then 1 else 0))
  | .flt q => some (.flt (round4 q))
  | _ => none

/-- The field list of the per-symbol record built by
`structure_stock_data`. -/
def stockFields (tfs _dfs pfs cfs : List (String × JVal))
    (symbol pc : JVal) : List (String × JVal) :=
  [
    ("name", (jGet tfs "name").getD (.str "")),
    ("symbol", symbol),
    ("assetId", (jGet tfs "assetId").getD .null),
    ("securityType", (jGet tfs "securityType").getD (.str "")),
    ("isTradable", (jGet tfs "isTradable").getD (.bool false)),
    ("currentPrice", (jGet pfs "currentPrice").getD .null),
    ("currentPriceDisplay", (jGet pfs "currentPriceDisplay").getD (.str "")),
    ("percentageChange", pc),
    ("percentageDisplay", (jGet pfs "percentageDisplay").getD (.str "")),
    ("direction", (jGet pfs "arrowIcon").getD (.str "")),
    ("lastClosingPrice", (jGet pfs "lastClosingPrice").getD .null),
    ("dividendAmount", (jGet pfs "dividendAmount").getD (.int 0)),
    ("marketCap", (jGet cfs "value").getD (.str "")),
    ("sparkLine", (jGet tfs "sparkLine").getD (.str ""))]

/-- The per-symbol record literal built by `structure_stock_data`. -/
def mkStockRecord (tfs dfs pfs cfs : List (String × JVal))
    (symbol pc : JVal) : JVal :=
  .obj (stockFields tfs dfs pfs cfs symbol pc)

/-- The per-asset `try` block: any exception inside it (attribute access
on a non-dict, `round` on a non-number, an unhashable key) skips the
asset; an asset whose `tileInfo` has no truthy `symbol` is skipped by the
explicit `continue`. -/
def processAsset (a : JVal) (m : StockMap) : StockMap :=
  match a with
  | .obj afs =>
    let tile := (jGet afs "tileInfo").getD (.obj [])
    let display := (jGet afs "display").getD (.obj [])
    match tile, display with
    | .obj tfs, .obj dfs =>
      let priceInfo := (jGet dfs "lastPriceAndPercentageChange").getD (.obj [])
      let capInfo := (jGet dfs "marketCap").getD (.obj [])
      let symbol := (jGet tfs "symbol").getD (.str "")
      if !jTruthy symbol then m
      else
        match priceInfo, capInfo with
        | .obj pfs, .obj cfs =>
          match pyRound4 ((jGet pfs "percentageChange").getD (.int 0)) with
          | some pc =>
            if jHashable symbol then
              updStock m symbol (mkStockRecord tfs dfs pfs cfs symbol pc)
            else m
          | none => m
        | _, _ => m
    | _, _ => m
  | _ => m

def walkAssets (assets : List JVal) (m : StockMap) : StockMap :=
  assets.foldl (fun mm a => processAsset a mm) m

/-- `for sub_cat_data in cat.get('assetCategoryData', []): for asset in
sub_cat_data.get('assets', [])`: attribute errors and bad iterables here
are NOT caught by the per-asset `try` and propagate. -/
def walkSubCats : List JVal → StockMap → Except Unit StockMap
  | [], m => .ok m
  | sub :: rest, m =>
    match pyGetD sub "assets" (.arr []) with
    | .error e => .error e
    | .ok assetsV =>
      match pyIter assetsV with
      | .error e => .error e
      | .ok assets => walkSubCats rest (walkAssets assets m)

def walkCats : List JVal → StockMap → Except Unit StockMap
  | [], m => .ok m
  | cat :: rest, m =>
    match pyGetD cat "assetCategoryData" (.arr []) with
    | .error e => .error e
    | .ok subsV =>
      match pyIter subsV with
      | .error e => .error e
      | .ok subs =>
        match walkSubCats subs m with
        | .error e => .error e
        | .ok m2 => walkCats rest m2

/-- `walk_inline`: descend `props.pageProps.data.assetCategories` (with
the `pageProps` fallback when `props.pageProps` is falsy). -/
def walk_inline (content : JVal) (m : StockMap) : Except Unit StockMap :=
  match content with
  | .obj cfs =>
    match pyGetD ((jGet cfs "props").getD (.obj [])) "pageProps" (.obj []) with
    | .error e => .error e
    | .ok pp1 =>
      let page_props :=
        if jTruthy pp1 then pp1 else (jGet cfs "pageProps").getD (.obj [])
      match pyGetD page_props "data" (.obj []) with
      | .error e => .error e
      | .ok explore =>
        match pyGetD explore "assetCategories" (.arr []) with
        | .error e => .error e
        | .ok catsV =>
          match pyIter catsV with
          | .error e => .error e
          | .ok cats => walkCats cats m
  | _ => .ok m

/-! ## `found_data` and the two normalizer entry points

`find_json` accumulates a heterogeneous dict `found_data`; its values
are embedded as a tagged union. -/

inductive FoundVal where
  | json (v : JVal)
  | inline (items : List InlineItem)
  | ws (items : List JVal)
  | tables (ts : List TableData)
  | gold (g : GoldMap)
  | stocks (s : StockMap)

/-- Python truthiness of a `found_data` value. -/
def fvTruthy : FoundVal → Bool
  | .json v => jTruthy v
  | .inline xs => !xs.isEmpty
  | .ws xs => !xs.isEmpty
  | .tables ts => !ts.isEmpty
  | .gold g => !g.isEmpty
  | .stocks s => !s.isEmpty

/-- The `structured` map accumulated by `structure_gold_data`: the
HTML-table path then the Nuxt/Vue reactive-array path write into one
shared map. -/
def goldCollected (fd : List (String × FoundVal)) : GoldMap :=
  let s1 : GoldMap :=
    match lookupAssoc fd "html_tables_data" with
    | some (.tables ts) => ts.foldl (fun m t => process_table_rows m t.data) []
    | _ => []
  match lookupAssoc fd "inline_html_data" with
  | some (.inline its) => its.foldl goldVueScript s1
  | _ => s1

/-- `analysis.structure_gold_data`: an empty collected map becomes
`None` (`return structured if structured else None`). -/
def structure_gold_data (fd : List (String × FoundVal)) : Option GoldMap :=
  if (goldCollected fd).isEmpty then none else some (goldCollected fd)

/-- The loop of `structure_stock_data` over the inline script items.
Malformed nesting above the per-asset level raises (the `Except.error`
case), which `find_json` does not catch. -/
def stockScriptsLoop : List InlineItem → StockMap → Except Unit StockMap
  | [], m => .ok m
  | it :: rest, m =>
    if it.itype == "inline_script" || it.itype == "ld+json" then
      match walk_inline it.content m with
      | .error e => .error e
      | .ok m2 => stockScriptsLoop rest m2
    else stockScriptsLoop rest m

/-- `analysis.structure_stock_data`. -/
def structure_stock_data (fd : List (String × FoundVal)) :
    Except Unit (Option StockMap) :=
  let scripts :=
    match lookupAssoc fd "inline_html_data" with
    | some (.inline its) => its
    | _ => []
  match stockScriptsLoop scripts [] with
  | .error e => .error e
  | .ok m => .ok (if m.isEmpty then none else some m)

/-! ## `analysis.is_encrypted` -/

mutual

/-- Python `repr` of a decoded JSON value (string escaping inside nested
reprs and float formatting are idealised; only the length and the space
characters of the result matter to `is_encrypted`). -/
def pyRepr : JVal → String
  | .null => "None"
  | .bool b => if b then "True" else "False"
  | .int n => toString n
  | .flt q => if q.den == 1 then toString q.num ++ ".0" else toString q
  | .str s => "'" ++ s ++ "'"
  | .arr xs => "[" ++ pyReprList xs ++ "]"
  | .obj fs =>
    String.mk [braceOpen] ++ pyReprFields fs ++ String.mk [braceClose]

def pyReprList : List JVal → String
  | [] => ""
  | [x] => pyRepr x
  | x :: y :: rest => pyRepr x ++ ", " ++ pyReprList (y :: rest)

def pyReprFields : List (String × JVal) → String
  | [] => ""
  | [kv] => "'" ++ kv.1 ++ "': " ++ pyRepr kv.2
  | kv :: kw :: rest =>
    "'" ++ kv.1 ++ "': " ++ pyRepr kv.2 ++ ", " ++ pyReprFields (kw :: rest)

end

/-- Python `str()` of a decoded JSON value. -/
def pyStr (v : JVal) : String :=
  match v with
  | .str s => s
  | _ => pyRepr v

/-- `re.match('^[A-Za-z0-9+/=]+$', s)`. -/
def isBase64Alpha (s : String) : Bool :=
  !s.isEmpty && s.toList.all
    (fun c => c.isAlphanum || c = '+' || c = '/' || c = '=')

/-- `re.match('^[0-9a-fA-F]+$', s)`. -/
def isHexAlpha (s : String) : Bool :=
  !s.isEmpty && s.toList.all
    (fun c => c.isDigit || ('a' ≤ c && c ≤ 'f') || ('A' ≤ c && c ≤ 'F'))

/-- A captured network response record. -/
structure RespRec where
  url : String
  status : Int
  content_type : String
  body : String

/-- A captured WebSocket frame record. -/
structure WsMsg where
  url : String
  direction : String
  data : String

/-- `network_capture.CaptureResult`, together with the external HTML
parser's views of `html_content` needed downstream. -/
structure CaptureResult where
  responses : List RespRec
  websocket_messages : List WsMsg
  html_content : String

/-- The per-response test of `is_encrypted`: content type claims JSON and
either (i) the body fails strict parsing, is longer than 10 characters
and is pure base64 or pure hex alphabet, or (ii) the body parses to a
one-key dict whose sole value stringifies to more than 30 characters
without a space. -/
def respEncrypted (jp : String → Option JVal) (r : RespRec) : Bool :=
  strContains r.content_type "application/json" &&
  (((jp r.body).isNone && r.body.length > 10 &&
      (isBase64Alpha (strStrip r.body) || isHexAlpha (strStrip r.body))) ||
   (match jp r.body with
    | some (.obj fs) =>
      match fs with
      | [kv] =>
        let val := pyStr kv.2
        val.length > 30 && !strContains val " "
      | _ => false
    | _ => false))

/-- `analysis.is_encrypted`. -/
def is_encrypted (jp : String → Option JVal) (cap : CaptureResult) : Bool :=
  cap.responses.any (respEncrypted jp)

/-! ## `analysis.find_json` -/

/-- The keyword gate of step 1: some target keyword is a
case-insensitive substring of the response body or URL. -/
def kwRespMatch (kws : List String) (r : RespRec) : Bool :=
  kws.any (fun kw =>
    strContains (strLower r.body) (strLower kw) ||
    strContains (strLower r.url) (strLower kw))

/-- Step 1 of `find_json`: collect every captured response whose body
parses as JSON and which passes the keyword gate, keyed by URL. -/
def findJsonStep1 (jp : String → Option JVal) (kws : List String) :
    List RespRec → List (String × FoundVal) → List (String × FoundVal)
  | [], acc => acc
  | r :: rest, acc =>
    let acc2 :=
      if strContains r.content_type "application/json" || (jp r.body).isSome then
        match jp r.body with
        | some d => if kwRespMatch kws r then updAssoc r.url (.json d) acc else acc
        | none => acc
      else acc
    findJsonStep1 jp kws rest acc2

/-- The value returned by `find_json`: the accumulated `found_data`
dict, or the `{"smart_dom": ...}` wrapper of step 7. -/
inductive FoundResult where
  | found (fd : List (String × FoundVal))
  | smartDom (d : DomData)

/-- `analysis.find_json`.  The only uncaught exception inside it comes
from `structure_stock_data` (modelled by the `Except`). -/
def find_json (jp : String → Option JVal) (kws : List String)
    (parseDoc : String → HtmlDoc) (parseDom : String → DomPage)
    (parseTables : String → List HtmlTable) (cap : CaptureResult) :
    Except Unit (Option FoundResult) := do
  let fd1 := findJsonStep1 jp kws cap.responses []
  let inline := extract_inline_json jp cap.html_content
    (parseDoc cap.html_content) kws
  let fd2 :=
    if !inline.isEmpty then updAssoc "inline_html_data" (.inline inline) fd1
    else fd1
  let wsData := cap.websocket_messages.filterMap (fun msg =>
    if (jp msg.data).isSome &&
        kws.any (fun kw => strContains (strLower msg.data) (strLower kw)) then
      jp msg.data
    else none)
  let fd3 :=
    if !wsData.isEmpty then updAssoc "websocket_data" (.ws wsData) fd2 else fd2
  let tables := extract_html_tables (parseTables cap.html_content)
    cap.html_content kws
  let fd4 :=
    if !tables.isEmpty then updAssoc "html_tables_data" (.tables tables) fd3
    else fd3
  let fd5 :=
    match structure_gold_data fd4 with
    | some g =>
      if !g.isEmpty then updAssoc "structured_gold_prices" (.gold g) fd4 else fd4
    | none => fd4
  let stocksO ← structure_stock_data fd5
  let fd6 :=
    match stocksO with
    | some s =>
      if !s.isEmpty then updAssoc "structured_stocks" (.stocks s) fd5 else fd5
    | none => fd5
  if !fd6.isEmpty then return some (.found fd6)
  else
    let dd := smart_dom_extract cap.html_content (parseDom cap.html_content)
    if domTruthy dd then return some (.smartDom dd) else return none

/-! ## `network_capture.native_browser_fetch` and `decryption.try_decrypt` -/

/-- `native_browser_fetch`: after navigating to the main URL (`navOk`
false models a failed `goto`, which aborts the loop with an empty
result), each endpoint is fetched via in-page `fetch()`; the in-page
JavaScript catches its own errors and returns `{error: ...}`.  A result
is kept iff it is a dict whose `error` field is absent or falsy. -/
def native_browser_fetch (navOk : Bool) (evalFetch : String → JVal)
    (api_endpoints : List String) : List (String × JVal) :=
  if navOk then
    api_endpoints.foldl (fun acc ep =>
      match evalFetch ep with
      | .obj fs =>
        if !jTruthy ((jGet fs "error").getD .null) then
          updAssoc ep (.obj fs) acc
        else acc
      | _ => acc) []
  else []

/-- The base64 padding step of `try_decrypt`. -/
def padB64 (body : String) : String :=
  let r := body.length % 4
  if r != 0 then body ++ String.mk (List.replicate (4 - r) '=') else body

/-- `decryption.try_decrypt`: base64-decode non-JSON-looking bodies (the
`b64` oracle is `base64.b64decode` + UTF-8 decode, `none` on failure) and
keep those that re-parse as JSON. -/
def try_decrypt (jp : String → Option JVal) (b64 : String → Option String)
    (cap : CaptureResult) : Option (List (String × JVal)) :=
  let m := cap.responses.foldl (fun acc r =>
    let body := strStrip r.body
    if body.length > 10 && !strStarts body (String.mk [braceOpen]) &&
        !strStarts body "[" then
      match b64 (padB64 body) with
      | some decoded =>
        match jp decoded with
        | some j => updAssoc r.url j acc
        | none => acc
      | none => acc
    else acc) []
  if m.isEmpty then none else some m

/-! ## `main.save_data` and `api_server.get_latest_file` -/

/-- `urlparse(u).netloc` for absolute URLs (the host part between the
scheme separator and the next slash); relative URLs have no netloc. -/
def afterMarker (cs pat : List Char) : Option (List Char) :=
  match cs with
  | [] => none
  | _ :: rest =>
    if chMatchAt pat cs then some (cs.drop pat.length) else afterMarker rest pat

def netlocOf (u : String) : String :=
  match afterMarker u.toList "://".toList with
  | some r => String.mk (r.takeWhile (fun c => c ≠ '/'))
  | none => ""

/-- `urlparse(source_url).netloc.replace('.', '_')`, defaulting to
`"unknown"` when empty. -/
def domainSlug (source_url : String) : String :=
  let d := strReplace (netlocOf source_url) "." "_"
  if d == "" then "unknown" else d

/-- The payload persisted by `save_data`, per originating layer. -/
inductive ScrapeData where
  | inlineItems (xs : List InlineItem)
  | foundRes (fr : FoundResult)
  | dom (d : DomData)
  | native (m : List (String × JVal))
  | wpAjax (m : List (String × String))
  | llm (v : JVal)
  | decrypted (m : List (String × JVal))
  | unlocker (v : JVal)

/-- The persisted artifact: the target file name and the
`{"metadata": ..., "data": ...}` envelope. -/
structure SaveOutcome where
  filename : String
  metadata : List (String × JVal)
  data : ScrapeData

/-- `main.save_data` (the successful write path): builds the file name
`hasil_scrape/<domain>_<method>_<epoch>.json` and the envelope. -/
def save_data (data : ScrapeData) (source_url method : String) (now : Int) :
    SaveOutcome :=
  { filename := "hasil_scrape/" ++ domainSlug source_url ++ "_" ++ method ++
      "_" ++ toString now ++ ".json",
    metadata := [("source", .str source_url),
                 ("extraction_method", .str method),
                 ("timestamp", .int now),
                 ("auto_scraper_version", .str "v2.0 (6-Layer Intel)")],
    data := data }

/-- The method string recorded in a persisted envelope. -/
def methodOf (rec : SaveOutcome) : Option JVal :=
  lookupAssoc rec.metadata "extraction_method"

/-- A file visible to `glob.glob`, with its modification time. -/
structure FileEnt where
  path : String
  mtime : Int

/-- `api_server.get_latest_file`: glob filtering (the `globMatch` oracle
is `fnmatch` as used by `glob.glob`) followed by `max(..., key=mtime)`
(first maximum wins, as in CPython). -/
def get_latest_file (globMatch : String → String → Bool)
    (files : List FileEnt) (pattern : String) : Option String :=
  match files.filter (fun f => globMatch pattern f.path) with
  | [] => none
  | f :: rest =>
    some ((rest.foldl (fun best g => if best.mtime < g.mtime then g else best) f).path)

/-! ## `main.main`: the layered pipeline

`Env` packages the configuration and every external collaborator the
pipeline touches: `json.loads` (`jp`), base64 decoding (`b64`), the
HTML parsing library (`parseDoc`/`parseDom`/`parseTables`), the browser
capture (`capture`, `none` when `network_capture.capture` raises), the
in-page fetches of Layer 4, the two `requests.post` calls of Layer 5
(`none` when the call raises), the LLM service outcome of Layer 5.5 and
the web-unlocker outcome of Layer 6. -/

structure Env where
  keywords : List String
  useLLMParser : Bool
  useWebUnlocker : Bool
  jp : String → Option JVal
  b64 : String → Option String
  rawHtml : String → String
  parseDoc : String → HtmlDoc
  parseDom : String → DomPage
  parseTables : String → List HtmlTable
  capture : Option CaptureResult
  nativeNavOk : Bool
  nativeEval : String → JVal
  ajax1 : Option (Int × String)
  ajax2 : Option (Int × String)
  llmData : Option JVal
  unlockerData : Option JVal
  now : Int

/-- The parameter list of `direct_request.request`:
`(url, timeout=10, proxies=None, headers=None)`. -/
def requestParams : List String := ["url", "timeout", "proxies", "headers"]

/-- Python keyword-argument binding: every keyword name must be a
declared parameter, otherwise the call raises `TypeError` before the
callee body runs. -/
def kwargsAccepted (params kwargs : List String) : Bool :=
  kwargs.all (fun k => params.contains k)

/-- The keyword arguments of the Layer 1 call
`direct_request.request(url, timeout=10, proxies=req_proxy, return_raw=True)`. -/
def layer1Kwargs : List String := ["timeout", "proxies", "return_raw"]

/-- The Layer 1 call: if the keyword binding succeeded the call would
produce the fetched raw HTML; since `return_raw` is not a parameter of
`request`, Python raises `TypeError` instead. -/
def callRequestReturnRaw (fetched : String) : Except String String :=
  if kwargsAccepted requestParams layer1Kwargs then .ok fetched
  else .error "TypeError: unexpected keyword argument return_raw"

/-- The Layer 2 collection of blocked/empty API endpoints: status
401/403/400 or an empty 200 body, restricted to URLs containing `api`
or a target keyword. -/
def failedEndpointTest (kws : List String) (r : RespRec) : Bool :=
  (r.status == 401 || r.status == 403 || r.status == 400 ||
    (r.status == 200 && r.body == "")) &&
  (strContains (strLower r.url) "api" ||
    kws.any (fun kw => strContains (strLower r.url) (strLower kw)))

def collectFailed (kws : List String) (cap : CaptureResult) : List String :=
  (cap.responses.filter (failedEndpointTest kws)).map (fun r => r.url)

/-- Layer 3: heuristic DOM extraction, persisted at once when the DOM
findings are strong (more than 2 articles, or any video embed). -/
def layer3Step (env : Env) (url : String) (cap : CaptureResult) :
    Option SaveOutcome :=
  if cap.html_content != "" then
    let dd := smart_dom_extract cap.html_content (env.parseDom cap.html_content)
    if domTruthy dd && (decide (dd.articles.length > 2) || !dd.video_embeds.isEmpty) then
      some (save_data (.dom dd) url "layer3_smart_dom" env.now)
    else none
  else none

/-- Python truthiness of a `find_json` result. -/
def frTruthy : FoundResult → Bool
  | .found fd => !fd.isEmpty
  | .smartDom _ => true

/-- Truthiness of `data.get("smart_dom")` on a `find_json` result. -/
def frGetSmartDom : FoundResult → Bool
  | .found fd =>
    match lookupAssoc fd "smart_dom" with
    | some v => fvTruthy v
    | none => false
  | .smartDom d => domTruthy d

/-- The re-evaluation of the Layer 2 result after Layer 3
(`if data and not data.get("smart_dom")`). -/
def layer2Eval (env : Env) (url : String) (data : Option FoundResult) :
    Option SaveOutcome :=
  match data with
  | some fr =>
    if frTruthy fr && !frGetSmartDom fr then
      some (save_data (.foundRes fr) url "layer2_network_capture" env.now)
    else none
  | none => none

/-- Layer 4: replay at most 5 unique blocked endpoints with in-page
`fetch()` calls. -/
def layer4Step (env : Env) (url : String) (failed : List String) :
    Option SaveOutcome :=
  let unique_eps := (dedupFirst failed).take 5
  let native := native_browser_fetch env.nativeNavOk env.nativeEval unique_eps
  if !native.isEmpty then
    some (save_data (.native native) url "layer4_native_fetch" env.now)
  else none

/-- The regex hunt for a WordPress post id:
`"post_id":"?(\d+)"?`, then `data-post="?(\d+)"?`, then `postid-(\d+)`. -/
def scanFor (lit : List Char) (after : List Char → Option (List Char)) :
    List Char → Option (List Char)
  | [] => none
  | c :: cs =>
    match (if chMatchAt lit (c :: cs) then after ((c :: cs).drop lit.length)
           else none) with
    | some r => some r
    | none => scanFor lit after cs

def digitsOptQuote (cs : List Char) : Option (List Char) :=
  let cs1 := match cs with
    | '"' :: r => r
    | r => r
  let ds := cs1.takeWhile Char.isDigit
  if ds.isEmpty then none else some ds

def digitsPlain (cs : List Char) : Option (List Char) :=
  let ds := cs.takeWhile Char.isDigit
  if ds.isEmpty then none else some ds

def findPostId (html : String) : Option String :=
  match scanFor ("\"post_id\":".toList) digitsOptQuote html.toList with
  | some ds => some (String.mk ds)
  | none =>
    match scanFor ("data-post=".toList) digitsOptQuote html.toList with
    | some ds => some (String.mk ds)
    | none =>
      match scanFor ("postid-".toList) digitsPlain html.toList with
      | some ds => some (String.mk ds)
      | none => none

/-- Layer 5: WordPress admin-AJAX probing.  The two `requests.post`
calls are the `ajax1`/`ajax2` oracles (`none` models a raised request
exception, which the layer's `except` swallows). -/
def layer5Step (env : Env) (url : String) (cap : CaptureResult) :
    Option SaveOutcome :=
  if cap.html_content != "" then
    let html := cap.html_content
    if strContains html "wp-admin/admin-ajax.php" || strContains html "wp-content" then
      match findPostId html with
      | some _pid =>
        match env.ajax1 with
        | none => none
        | some r1 =>
          match env.ajax2 with
          | none => none
          | some r2 =>
            let combined :=
              (if r1.1 == 200 && strContains r1.2 (String.mk [braceOpen]) then
                [("ajax_response_1", r1.2)] else []) ++
              (if r2.1 == 200 && strContains r2.2 (String.mk [braceOpen]) then
                [("ajax_response_2", r2.2)] else [])
            if !combined.isEmpty then
              some (save_data (.wpAjax combined) url "layer5_wp_ajax" env.now)
            else none
      | none => none
    else none
  else none

/-- Layer 5.5: the LLM structuring fallback (`ai_llm_extract` is an
external text-completion service; its non-empty outcome is the
`llmData` oracle). -/
def layer55Step (env : Env) (url : String) (cap : CaptureResult) :
    Option SaveOutcome :=
  if cap.html_content != "" && env.useLLMParser then
    match env.llmData with
    | some v => some (save_data (.llm v) url "layer5_5_ai_llm" env.now)
    | none => none
  else none

/-- Layer 6 (first half): encryption sniffing plus basic decryption. -/
def layer6Step (env : Env) (url : String) (cap : CaptureResult) :
    Option SaveOutcome :=
  if is_encrypted env.jp cap then
    match try_decrypt env.jp env.b64 cap with
    | some m => some (save_data (.decrypted m) url "layer6_decrypted" env.now)
    | none => none
  else none

/-- Layer 6 (second half): the external web unlocker. -/
def unlockerStep (env : Env) (url : String) : Option SaveOutcome :=
  if env.useWebUnlocker then
    match env.unlockerData with
    | some v =>
      if jTruthy v then
        some (save_data (.unlocker v) url "layer6_fallback_unlocker" env.now)
      else none
    | none => none
  else none

/-- Early-return chaining: a layer that produced a result ends the
pipeline, otherwise control falls through. -/
def orStep (o : Option SaveOutcome)
    (k : Unit → Except Unit (Option SaveOutcome)) :
    Except Unit (Option SaveOutcome) :=
  match o with
  | some r => .ok (some r)
  | none => k ()

/-- The pipeline from Layer 2's analysis on.  When `find_json` raises,
the local variable `data` of `main` is never assigned, so after Layer 3
declines, line 96 (`if data and ...`) raises an uncaught `NameError`
(the `Except.error` case); the same happens when the browser capture
itself raised (`capture = none`). -/
def mainAfterCaptcha (env : Env) (url : String) (cap : CaptureResult) :
    Except Unit (Option SaveOutcome) :=
  match find_json env.jp env.keywords env.parseDoc env.parseDom
      env.parseTables cap with
  | .error _ => orStep (layer3Step env url cap) (fun _ => .error ())
  | .ok data =>
    orStep (layer3Step env url cap) (fun _ =>
    orStep (layer2Eval env url data) (fun _ =>
    orStep (if !(collectFailed env.keywords cap).isEmpty then
              layer4Step env url (collectFailed env.keywords cap)
            else none) (fun _ =>
    orStep (layer5Step env url cap) (fun _ =>
    orStep (layer55Step env url cap) (fun _ =>
    orStep (layer6Step env url cap) (fun _ =>
    orStep (unlockerStep env url) (fun _ => .ok none)))))))

/-- Layer 2 onward, including the CAPTCHA check: the detection is
computed and the external solver invoked, but the solver's (always
`None`) result is discarded and the pipeline proceeds regardless. -/
def mainCore (env : Env) (url : String) : Except Unit (Option SaveOutcome) :=
  match env.capture with
  | none => .error ()
  | some cap =>
    let _captcha := detect_captcha cap.html_content
    let _solver :=
      match _captcha with
      | some ct => solve_captcha_external cap.html_content url ct
      | none => none
    mainAfterCaptcha env url cap

/-- `main.main`: Layer 1 attempts
`request(url, timeout=10, proxies=..., return_raw=True)`; the keyword
binding fails, the `TypeError` is swallowed and control proceeds to
Layer 2. -/
def mainRun (env : Env) (url : String) : Except Unit (Option SaveOutcome) :=
  match callRequestReturnRaw (env.rawHtml url) with
  | .ok html_req =>
    let inline_data := extract_inline_json env.jp html_req
      (env.parseDoc html_req) env.keywords
    if !inline_data.isEmpty then
      .ok (some (save_data (.inlineItems inline_data) url "layer1_ssr_parser" env.now))
    else mainCore env url
  | .error _ => mainCore env url

/-- `mainCore` with the CAPTCHA-handling block removed, for comparison. -/
def mainCoreSansCaptcha (env : Env) (url : String) :
    Except Unit (Option SaveOutcome) :=
  match env.capture with
  | none => .error ()
  | some cap => mainAfterCaptcha env url cap

/-- `mainRun` with the CAPTCHA-handling block removed, for comparison. -/
def mainRunSansCaptcha (env : Env) (url : String) :
    Except Unit (Option SaveOutcome) :=
  match callRequestReturnRaw (env.rawHtml url) with
  | .ok html_req =>
    let inline_data := extract_inline_json env.jp html_req
      (env.parseDoc html_req) env.keywords
    if !inline_data.isEmpty then
      .ok (some (save_data (.inlineItems inline_data) url "layer1_ssr_parser" env.now))
    else mainCoreSansCaptcha env url
  | .error _ => mainCoreSansCaptcha env url

/-! ## Supporting lemmas -/

theorem lookupAssoc_updAssoc (k : String) (v : α) (m : List (String × α))
    (u : String) :
    lookupAssoc (updAssoc k v m) u = if u = k then some v else lookupAssoc m u := by
  induction m with
  | nil =>
    by_cases h : u = k
    · simp [lookupAssoc, updAssoc, List.find?, h]
    · simp [lookupAssoc, updAssoc, List.find?,
        show (k == u) = false by simpa using fun hh => h hh.symm, h]
  | cons kv rest ih =>
    obtain ⟨k0, v0⟩ := kv
    by_cases hk : k0 = k
    · subst hk
      by_cases hu : u = k0
      · simp [lookupAssoc, updAssoc, List.find?, hu]
      · simp [lookupAssoc, updAssoc, List.find?,
          show (k0 == u) = false by simpa using fun hh => hu hh.symm, hu]
    · by_cases hu : u = k0
      · subst hu
        simp [lookupAssoc, updAssoc, List.find?,
          show (u == k) = false by simpa using hk,
          show u ≠ k from hk]
      · have hne : (k0 == u) = false := by simpa using fun hh => hu hh.symm
        simp only [updAssoc, show (k0 == k) = false by simpa using hk,
          Bool.false_eq_true, if_false]
        simp only [lookupAssoc, List.find?, hne] at ih ⊢
        exact ih

theorem lookupAssoc_isSome_updAssoc (k : String) (v : α)
    (m : List (String × α)) (u : String) :
    (lookupAssoc (updAssoc k v m) u).isSome ↔
      u = k ∨ (lookupAssoc m u).isSome := by
  rw [lookupAssoc_updAssoc]
  by_cases h : u = k <;> simp [h]

theorem orStep_eq_ok (o : Option SaveOutcome)
    (k : Unit → Except Unit (Option SaveOutcome)) (rec : SaveOutcome)
    (h : orStep o k = .ok (some rec)) :
    o = some rec ∨ (o = none ∧ k () = .ok (some rec)) := by
  cases o with
  | some r =>
    left
    simp only [orStep, Except.ok.injEq, Option.some.injEq] at h
    rw [h]
  | none => right; exact ⟨rfl, h⟩

theorem save_data_method (d : ScrapeData) (u m : String) (t : Int) :
    methodOf (save_data d u m t) = some (.str m) := rfl

theorem layer3Step_method (env : Env) (url : String) (cap : CaptureResult)
    (r : SaveOutcome) (h : layer3Step env url cap = some r) :
    methodOf r = some (.str "layer3_smart_dom") := by
  simp only [layer3Step] at h
  repeat' first
    | exact Option.noConfusion h
    | (cases h; rfl)
    | split at h

theorem layer2Eval_method (env : Env) (url : String)
    (data : Option FoundResult) (r : SaveOutcome)
    (h : layer2Eval env url data = some r) :
    methodOf r = some (.str "layer2_network_capture") := by
  simp only [layer2Eval] at h
  repeat' first
    | exact Option.noConfusion h
    | (cases h; rfl)
    | split at h

theorem layer4Step_method (env : Env) (url : String) (failed : List String)
    (r : SaveOutcome) (h : layer4Step env url failed = some r) :
    methodOf r = some (.str "layer4_native_fetch") := by
  simp only [layer4Step] at h
  repeat' first
    | exact Option.noConfusion h
    | (cases h; rfl)
    | split at h

theorem layer5Step_method (env : Env) (url : String) (cap : CaptureResult)
    (r : SaveOutcome) (h : layer5Step env url cap = some r) :
    methodOf r = some (.str "layer5_wp_ajax") := by
  simp only [layer5Step] at h
  repeat' first
    | exact Option.noConfusion h
    | (cases h; rfl)
    | split at h

theorem layer55Step_method (env : Env) (url : String) (cap : CaptureResult)
    (r : SaveOutcome) (h : layer55Step env url cap = some r) :
    methodOf r = some (.str "layer5_5_ai_llm") := by
  simp only [layer55Step] at h
  repeat' first
    | exact Option.noConfusion h
    | (cases h; rfl)
    | split at h

theorem layer6Step_method (env : Env) (url : String) (cap : CaptureResult)
    (r : SaveOutcome) (h : layer6Step env url cap = some r) :
    methodOf r = some (.str "layer6_decrypted") := by
  simp only [layer6Step] at h
  repeat' first
    | exact Option.noConfusion h
    | (cases h; rfl)
    | split at h

theorem unlockerStep_method (env : Env) (url : String) (r : SaveOutcome)
    (h : unlockerStep env url = some r) :
    methodOf r = some (.str "layer6_fallback_unlocker") := by
  simp only [unlockerStep] at h
  repeat' first
    | exact Option.noConfusion h
    | (cases h; rfl)
    | split at h

/-- The method strings `main` can ever persist: Layer 1 is absent
because its `request(..., return_raw=True)` call always raises. -/
def coreMethods : List String :=
  ["layer2_network_capture", "layer3_smart_dom",
   "layer4_native_fetch", "layer5_wp_ajax", "layer5_5_ai_llm",
   "layer6_decrypted", "layer6_fallback_unlocker"]

theorem mainAfterCaptcha_method (env : Env) (url : String)
    (cap : CaptureResult) (rec : SaveOutcome)
    (h : mainAfterCaptcha env url cap = .ok (some rec)) :
    ∃ m, methodOf rec = some (.str m) ∧ m ∈ coreMethods := by
  unfold mainAfterCaptcha at h
  split at h
  · rcases orStep_eq_ok _ _ _ h with h3 | ⟨-, habs⟩
    · exact ⟨_, layer3Step_method _ _ _ _ h3, by simp [coreMethods]⟩
    · exact Except.noConfusion habs
  · rcases orStep_eq_ok _ _ _ h with h3 | ⟨-, h⟩
    · exact ⟨_, layer3Step_method _ _ _ _ h3, by simp [coreMethods]⟩
    rcases orStep_eq_ok _ _ _ h with h2 | ⟨-, h⟩
    · exact ⟨_, layer2Eval_method _ _ _ _ h2, by simp [coreMethods]⟩
    rcases orStep_eq_ok _ _ _ h with h4 | ⟨-, h⟩
    · split at h4
      · exact ⟨_, layer4Step_method _ _ _ _ h4, by simp [coreMethods]⟩
      · exact Option.noConfusion h4
    rcases orStep_eq_ok _ _ _ h with h5 | ⟨-, h⟩
    · exact ⟨_, layer5Step_method _ _ _ _ h5, by simp [coreMethods]⟩
    rcases orStep_eq_ok _ _ _ h with h55 | ⟨-, h⟩
    · exact ⟨_, layer55Step_method _ _ _ _ h55, by simp [coreMethods]⟩
    rcases orStep_eq_ok _ _ _ h with h6 | ⟨-, h⟩
    · exact ⟨_, layer6Step_method _ _ _ _ h6, by simp [coreMethods]⟩
    rcases orStep_eq_ok _ _ _ h with h7 | ⟨-, habs⟩
    · exact ⟨_, unlockerStep_method _ _ _ h7, by simp [coreMethods]⟩
    · simp at habs

/-- The Layer 1 keyword binding always fails, so `main` reduces to the
Layer-2-onward pipeline. -/
theorem mainRun_eq_mainCore (env : Env) (url : String) :
    mainRun env url = mainCore env url := rfl

theorem mainCore_method (env : Env) (url : String) (rec : SaveOutcome)
    (h : mainCore env url = .ok (some rec)) :
    ∃ m, methodOf rec = some (.str m) ∧ m ∈ coreMethods := by
  unfold mainCore at h
  split at h
  · exact Except.noConfusion h
  · exact mainAfterCaptcha_method _ _ _ _ h

theorem mainRun_method (env : Env) (url : String) (rec : SaveOutcome)
    (h : mainRun env url = .ok (some rec)) :
    ∃ m, methodOf rec = some (.str m) ∧ m ∈ coreMethods := by
  rw [mainRun_eq_mainCore] at h
  exact mainCore_method _ _ _ h

/-! ## Characterisation of the Layer 2 keyword gate (step 1 of
`find_json`) -/

theorem findJsonStep1_mem (jp : String → Option JVal) (kws : List String)
    (resps : List RespRec) (acc : List (String × FoundVal)) (u : String) :
    (lookupAssoc (findJsonStep1 jp kws resps acc) u).isSome ↔
      (lookupAssoc acc u).isSome ∨
        ∃ r ∈ resps, r.url = u ∧ (jp r.body).isSome ∧ kwRespMatch kws r := by
  induction resps generalizing acc with
  | nil => simp [findJsonStep1]
  | cons r rest ih =>
    simp only [findJsonStep1]
    rw [ih]
    constructor
    · rintro (hacc | hrest)
      · by_cases hct : (strContains r.content_type "application/json" ||
            (jp r.body).isSome) = true
        · simp only [hct, if_true] at hacc
          cases hjp : jp r.body with
          | none => simp only [hjp] at hacc; exact Or.inl hacc
          | some d =>
            simp only [hjp] at hacc
            by_cases hkw : kwRespMatch kws r = true
            · simp only [hkw, if_true] at hacc
              rcases (lookupAssoc_isSome_updAssoc _ _ _ _).mp hacc with hu | hacc2
              · exact Or.inr ⟨r, by simp, hu.symm, by simp [hjp], hkw⟩
              · exact Or.inl hacc2
            · simp only [hkw] at hacc
              simp at hacc
              exact Or.inl (by simpa using hacc)
        · simp only [if_neg hct] at hacc
          exact Or.inl hacc
      · obtain ⟨r2, hr2, hurl, hjp, hkw⟩ := hrest
        exact Or.inr ⟨r2, by simp [hr2], hurl, hjp, hkw⟩
    · rintro (hacc | ⟨r2, hr2, hurl, hjp2, hkw2⟩)
      · left
        by_cases hct : (strContains r.content_type "application/json" ||
            (jp r.body).isSome) = true
        · simp only [hct, if_true]
          cases hjp : jp r.body with
          | none => exact hacc
          | some d =>
            by_cases hkw : kwRespMatch kws r = true
            · simp only [hkw, if_true]
              exact (lookupAssoc_isSome_updAssoc _ _ _ _).mpr (Or.inr hacc)
            · simpa [hkw] using hacc
        · simpa [hct] using hacc
      · rcases List.mem_cons.mp hr2 with heq | hmem
        · subst heq
          left
          have hct : (strContains r2.content_type "application/json" ||
              (jp r2.body).isSome) = true := by
            simp [hjp2]
          simp only [hct, if_true]
          cases hjp : jp r2.body with
          | none => simp [hjp] at hjp2
          | some d =>
            simp only [hkw2, if_true]
            exact (lookupAssoc_isSome_updAssoc _ _ _ _).mpr (Or.inl hurl.symm)
        · exact Or.inr ⟨r2, hmem, hurl, hjp2, hkw2⟩

/-- `extract_inline_json` never reads its `target_keywords` argument. -/
theorem extract_inline_json_kw_independent (jp : String → Option JVal)
    (html : String) (doc : HtmlDoc) (kws kws2 : List String) :
    extract_inline_json jp html doc kws = extract_inline_json jp html doc kws2 := rfl

/-! ## Characterisation of the Layer 4 inputs and acceptance -/

theorem collectFailed_mem (kws : List String) (cap : CaptureResult)
    (u : String) :
    u ∈ collectFailed kws cap ↔
      ∃ r ∈ cap.responses, r.url = u ∧ failedEndpointTest kws r := by
  simp only [collectFailed, List.mem_map, List.mem_filter]
  constructor
  · rintro ⟨r, ⟨hr, ht⟩, hu⟩
    exact ⟨r, hr, hu, ht⟩
  · rintro ⟨r, hr, hu, ht⟩
    exact ⟨r, ⟨hr, ht⟩, hu⟩

/-- Acceptance test of one in-page fetch result: a dict whose `error`
field is absent or falsy. -/
def acceptNative (v : JVal) : Bool :=
  match v with
  | .obj fs => !jTruthy ((jGet fs "error").getD .null)
  | _ => false

theorem nativeFold_mem (evalFetch : String → JVal) (eps : List String)
    (acc : List (String × JVal)) (ep : String) :
    (lookupAssoc (eps.foldl (fun acc e =>
        match evalFetch e with
        | .obj fs =>
          if !jTruthy ((jGet fs "error").getD .null) then
            updAssoc e (.obj fs) acc
          else acc
        | _ => acc) acc) ep).isSome ↔
      (lookupAssoc acc ep).isSome ∨ (ep ∈ eps ∧ acceptNative (evalFetch ep)) := by
  induction eps generalizing acc with
  | nil => simp
  | cons e rest ih =>
    simp only [List.foldl_cons]
    rw [ih]
    constructor
    · rintro (hacc | hrest)
      · cases hev : evalFetch e with
        | obj fs =>
          simp only [hev] at hacc
          by_cases herr : (!jTruthy ((jGet fs "error").getD .null)) = true
          · simp only [herr, if_true] at hacc
            rcases (lookupAssoc_isSome_updAssoc _ _ _ _).mp hacc with hu | hacc2
            · subst hu
              exact Or.inr ⟨by simp, by simp [acceptNative, hev, herr]⟩
            · exact Or.inl hacc2
          · simpa [herr] using Or.inl hacc
        | null => simpa [hev] using Or.inl hacc
        | bool b => simpa [hev] using Or.inl hacc
        | int n => simpa [hev] using Or.inl hacc
        | flt q => simpa [hev] using Or.inl hacc
        | str s => simpa [hev] using Or.inl hacc
        | arr xs => simpa [hev] using Or.inl hacc
      · exact Or.inr ⟨by simp [hrest.1], hrest.2⟩
    · rintro (hacc | ⟨hmem, hacc⟩)
      · left
        cases hev : evalFetch e with
        | obj fs =>
          by_cases herr : (!jTruthy ((jGet fs "error").getD .null)) = true
          · simp only [herr, if_true]
            exact (lookupAssoc_isSome_updAssoc _ _ _ _).mpr (Or.inr hacc)
          · simpa [herr] using hacc
        | null => exact hacc
        | bool b => exact hacc
        | int n => exact hacc
        | flt q => exact hacc
        | str s => exact hacc
        | arr xs => exact hacc
      · rcases List.mem_cons.mp hmem with heq | hmem2
        · subst heq
          left
          cases hev : evalFetch ep with
          | obj fs =>
            simp only [hev, acceptNative] at hacc
            dsimp only
            rw [if_pos hacc]
            exact (lookupAssoc_isSome_updAssoc _ _ _ _).mpr (Or.inl rfl)
          | null => simp only [hev, acceptNative] at hacc; exact Bool.noConfusion hacc
          | bool b => simp only [hev, acceptNative] at hacc; exact Bool.noConfusion hacc
          | int n => simp only [hev, acceptNative] at hacc; exact Bool.noConfusion hacc
          | flt q => simp only [hev, acceptNative] at hacc; exact Bool.noConfusion hacc
          | str s => simp only [hev, acceptNative] at hacc; exact Bool.noConfusion hacc
          | arr xs => simp only [hev, acceptNative] at hacc; exact Bool.noConfusion hacc
        · exact Or.inr ⟨hmem2, hacc⟩

theorem native_browser_fetch_mem (navOk : Bool) (evalFetch : String → JVal)
    (eps : List String) (ep : String) :
    (lookupAssoc (native_browser_fetch navOk evalFetch eps) ep).isSome ↔
      navOk = true ∧ ep ∈ eps ∧ acceptNative (evalFetch ep) := by
  cases navOk with
  | true =>
    simp only [native_browser_fetch, if_true]
    rw [nativeFold_mem]
    simp [lookupAssoc]
  | false => simp [native_browser_fetch, lookupAssoc]

/-! ## Length bounds for the DOM-heuristic excerpt -/

theorem chMatchAt_length (pat hay : List Char) (h : chMatchAt pat hay = true) :
    pat.length ≤ hay.length := by
  induction pat generalizing hay with
  | nil => simp
  | cons p ps ih =>
    cases hay with
    | nil => simp [chMatchAt] at h
    | cons c cs =>
      simp only [chMatchAt, Bool.and_eq_true] at h
      simpa using ih cs h.2

theorem replAllAux_length (pat rep : List Char) (hrep : rep.length ≤ pat.length)
    (fuel : Nat) (cs : List Char) :
    (replAllAux pat rep fuel cs).length ≤ cs.length := by
  induction fuel generalizing cs with
  | zero => cases cs <;> simp [replAllAux]
  | succ n ih =>
    cases cs with
    | nil => simp [replAllAux]
    | cons c cs0 =>
      simp only [replAllAux]
      by_cases hm : (!pat.isEmpty && chMatchAt pat (c :: cs0)) = true
      · simp only [hm, if_true, List.length_append]
        have hpat : pat.length ≤ (c :: cs0).length :=
          chMatchAt_length pat (c :: cs0)
            (by simp only [Bool.and_eq_true] at hm; exact hm.2)
        have hrec := ih ((c :: cs0).drop pat.length)
        have hdrop : ((c :: cs0).drop pat.length).length
            = (c :: cs0).length - pat.length := by simp
        omega
      · simp only [hm, if_false, Bool.false_eq_true, List.length_cons]
        have := ih cs0
        omega

/-- Every emitted article entry has an excerpt of at most 100
characters. -/
theorem ifSomeEq {α : Type} (cond : Prop) [Decidable cond] (x a : α)
    (h : (if cond then some x else none) = some a) : a = x := by
  split at h
  · exact (Option.some.inj h).symm
  · exact Option.noConfusion h

theorem buildArticleEntry_excerpt_le (i : Nat) (e : DomCard)
    (a : ArticleEntry) (h : buildArticleEntry i e = some a) :
    a.excerpt.length ≤ 100 := by
  simp only [buildArticleEntry] at h
  have ha := ifSomeEq _ _ _ h
  subst ha
  show (strReplace (String.mk ((strStrip e.text).toList.take 100)) "\\n" " ").length ≤ 100
  unfold strReplace
  have h1 : ∀ l : List Char, (String.mk l).length = l.length := fun l => rfl
  rw [h1]
  refine le_trans (replAllAux_length _ _ (by simp) _ _) ?_
  rw [show (String.mk ((strStrip e.text).toList.take 100)).toList
      = (strStrip e.text).toList.take 100 from rfl]
  simp

/-! ## `get_latest_file` returns a matching file of maximal mtime -/

theorem foldl_mtime_max (rest : List FileEnt) (f : FileEnt) :
    (rest.foldl (fun best g => if best.mtime < g.mtime then g else best) f)
        ∈ f :: rest ∧
      ∀ g ∈ f :: rest,
        g.mtime ≤ (rest.foldl
          (fun best g => if best.mtime < g.mtime then g else best) f).mtime := by
  induction rest generalizing f with
  | nil => exact ⟨by simp, by simp⟩
  | cons g rest ih =>
    simp only [List.foldl_cons]
    obtain ⟨hmem, hbd⟩ := ih (if f.mtime < g.mtime then g else f)
    constructor
    · rcases List.mem_cons.mp hmem with heq | hmem2
      · rw [heq]
        by_cases hlt : f.mtime < g.mtime <;> simp [hlt]
      · simp [List.mem_cons, hmem2]
    · intro x hx
      rcases List.mem_cons.mp hx with hxf | hx2
      · subst hxf
        by_cases hlt : x.mtime < g.mtime
        · rw [if_pos hlt] at hbd ⊢
          have hh := hbd g (by simp)
          omega
        · rw [if_neg hlt] at hbd ⊢
          have hh := hbd x (by simp)
          omega
      · rcases List.mem_cons.mp hx2 with hxg | hx3
        · subst hxg
          by_cases hlt : f.mtime < x.mtime
          · rw [if_pos hlt] at hbd ⊢
            have hh := hbd x (by simp)
            omega
          · rw [if_neg hlt] at hbd ⊢
            have hh := hbd f (by simp)
            omega
        · exact hbd _ (by simp [hx3])

theorem get_latest_file_is_max (globMatch : String → String → Bool)
    (files : List FileEnt) (pattern p : String)
    (h : get_latest_file globMatch files pattern = some p) :
    ∃ f ∈ files, globMatch pattern f.path ∧ f.path = p ∧
      ∀ g ∈ files, globMatch pattern g.path → g.mtime ≤ f.mtime := by
  unfold get_latest_file at h
  split at h
  · exact Option.noConfusion h
  · next f rest heq =>
    obtain ⟨hmem, hbd⟩ := foldl_mtime_max rest f
    rw [← heq] at hmem
    rcases List.mem_filter.mp hmem with ⟨hmemf, hmatch⟩
    refine ⟨_, hmemf, hmatch, by injection h, ?_⟩
    intro g hg hgm
    have hgmem : g ∈ f :: rest := by
      rw [← heq]
      exact List.mem_filter.mpr ⟨hg, hgm⟩
    exact hbd _ hgmem

/-! ## The quote-table normalizer: rounding invariant and the
empty-symbol skip -/

/-- A JSON value that is "rounded to 4 decimal places": an int, or a
float that is an integer multiple of 1/10000. -/
def pcValOk (pv : JVal) : Prop :=
  (∃ n, pv = .int n) ∨ ∃ q, pv = .flt q ∧ (10000 * q).den = 1

/-- Every record (a JSON dict) whose `percentageChange` field exists has
a 4-decimal-rounded value there. -/
def pcRounded : JVal → Prop
  | .obj fs => ∀ pv, jGet fs "percentageChange" = some pv → pcValOk pv
  | _ => True

theorem round4_den (x : Rat) : (10000 * round4 x).den = 1 := by
  unfold round4
  rw [mul_comm, div_mul_cancel₀ _ (by norm_num : (10000 : Rat) ≠ 0)]
  exact Rat.den_intCast _

theorem pyRound4_ok (x pv : JVal) (h : pyRound4 x = some pv) : pcValOk pv := by
  cases x with
  | int n => exact Or.inl ⟨n, (Option.some.inj h).symm⟩
  | bool b => exact Or.inl ⟨_, (Option.some.inj h).symm⟩
  | flt q =>
    refine Or.inr ⟨round4 q, (Option.some.inj h).symm, round4_den q⟩
  | null => exact Option.noConfusion h
  | str s => exact Option.noConfusion h
  | arr xs => exact Option.noConfusion h
  | obj fs => exact Option.noConfusion h

theorem stockFields_pc (tfs dfs pfs cfs : List (String × JVal))
    (symbol pc : JVal) :
    jGet (stockFields tfs dfs pfs cfs symbol pc) "percentageChange" = some pc := rfl

theorem mkStockRecord_rounded (tfs dfs pfs cfs : List (String × JVal))
    (symbol pc : JVal) (hpc : pcValOk pc) :
    pcRounded (mkStockRecord tfs dfs pfs cfs symbol pc) := by
  intro pv hget
  rw [stockFields_pc] at hget
  rw [← Option.some.inj hget]
  exact hpc

/-- All records in the map are rounded. -/
def stockInv (m : StockMap) : Prop := ∀ kv ∈ m, pcRounded kv.2

theorem stockInv_nil : stockInv [] := by
  intro kv hkv
  simp at hkv

theorem stockInv_updStock (m : StockMap) (k v : JVal) (hm : stockInv m)
    (hv : pcRounded v) : stockInv (updStock m k v) := by
  induction m with
  | nil =>
    intro kv hkv
    simp only [updStock, List.mem_singleton] at hkv
    rw [hkv]
    exact hv
  | cons kv0 rest ih =>
    obtain ⟨k0, v0⟩ := kv0
    intro kv hkv
    simp only [updStock] at hkv
    split at hkv
    · rcases List.mem_cons.mp hkv with heq | hmem
      · rw [heq]; exact hv
      · exact hm _ (List.mem_cons_of_mem _ hmem)
    · rcases List.mem_cons.mp hkv with heq | hmem
      · rw [heq]; exact hm _ (by simp)
      · exact ih (fun kv2 hkv2 => hm _ (List.mem_cons_of_mem _ hkv2)) _ hmem

theorem processAsset_inv (a : JVal) (m : StockMap) (hm : stockInv m) :
    stockInv (processAsset a m) := by
  simp only [processAsset]
  repeat' first
    | exact hm
    | (apply stockInv_updStock _ _ _ hm
       apply mkStockRecord_rounded
       apply pyRound4_ok _ _ (by assumption))
    | split

theorem walkAssets_inv (assets : List JVal) (m : StockMap)
    (hm : stockInv m) : stockInv (walkAssets assets m) := by
  induction assets generalizing m with
  | nil => exact hm
  | cons a rest ih =>
    simp only [walkAssets, List.foldl_cons] at *
    exact ih _ (processAsset_inv a m hm)

theorem walkSubCats_inv (subs : List JVal) (m m2 : StockMap)
    (h : walkSubCats subs m = .ok m2) (hm : stockInv m) : stockInv m2 := by
  induction subs generalizing m with
  | nil =>
    simp only [walkSubCats, Except.ok.injEq] at h
    rw [← h]; exact hm
  | cons sub rest ih =>
    simp only [walkSubCats] at h
    split at h
    · exact Except.noConfusion h
    · split at h
      · exact Except.noConfusion h
      · exact ih _ h (walkAssets_inv _ _ hm)

theorem walkCats_inv (cats : List JVal) (m m2 : StockMap)
    (h : walkCats cats m = .ok m2) (hm : stockInv m) : stockInv m2 := by
  induction cats generalizing m with
  | nil =>
    simp only [walkCats, Except.ok.injEq] at h
    rw [← h]; exact hm
  | cons cat rest ih =>
    simp only [walkCats] at h
    split at h
    · exact Except.noConfusion h
    · split at h
      · exact Except.noConfusion h
      · split at h
        · exact Except.noConfusion h
        · next m3 heq3 =>
          exact ih _ h (walkSubCats_inv _ _ _ heq3 hm)

theorem walk_inline_inv (content : JVal) (m m2 : StockMap)
    (h : walk_inline content m = .ok m2) (hm : stockInv m) : stockInv m2 := by
  simp only [walk_inline] at h
  repeat' first
    | exact Except.noConfusion h
    | (simp only [Except.ok.injEq] at h; rw [← h]; exact hm)
    | exact walkCats_inv _ _ _ h hm
    | split at h

theorem stockScriptsLoop_inv (its : List InlineItem) (m m2 : StockMap)
    (h : stockScriptsLoop its m = .ok m2) (hm : stockInv m) : stockInv m2 := by
  induction its generalizing m with
  | nil =>
    simp only [stockScriptsLoop, Except.ok.injEq] at h
    rw [← h]; exact hm
  | cons it rest ih =>
    simp only [stockScriptsLoop] at h
    split at h
    · split at h
      · exact Except.noConfusion h
      · next m3 heq3 =>
        exact ih _ h (walk_inline_inv _ _ _ heq3 hm)
    · exact ih _ h hm

theorem structure_stock_data_inv (fd : List (String × FoundVal))
    (m : StockMap) (h : structure_stock_data fd = .ok (some m)) :
    stockInv m := by
  simp only [structure_stock_data] at h
  split at h
  · exact Except.noConfusion h
  · next m0 heq =>
    have hinv := stockScriptsLoop_inv _ _ _ heq stockInv_nil
    simp only [Except.ok.injEq] at h
    split at h
    · exact Option.noConfusion h
    · rw [← Option.some.inj h]
      exact hinv

/-- The symbol value the per-asset block reads, when it is reached
without an exception: `asset.get('tileInfo', {}).get('symbol', '')`.
`none` means the block raised before the symbol test (the asset or its
`tileInfo`/`display` is not a dict). -/
def assetSymbol (a : JVal) : Option JVal :=
  match a with
  | .obj afs =>
    match (jGet afs "tileInfo").getD (.obj []), (jGet afs "display").getD (.obj []) with
    | .obj tfs, .obj _ => some ((jGet tfs "symbol").getD (.str ""))
    | _, _ => none
  | _ => none

/-- An asset without a truthy symbol (or whose record block raises) is
skipped silently: the map is unchanged. -/
theorem processAsset_skip (a : JVal) (m : StockMap)
    (h : ∀ sym, assetSymbol a = some sym → jTruthy sym = false) :
    processAsset a m = m := by
  cases a with
  | obj afs =>
    simp only [processAsset]
    cases htile : (jGet afs "tileInfo").getD (.obj []) with
    | obj tfs =>
      cases hdisp : (jGet afs "display").getD (.obj []) with
      | obj dfs =>
        have hsym := h ((jGet tfs "symbol").getD (.str ""))
          (by simp only [assetSymbol]; rw [htile, hdisp])
        simp [hsym]
      | null => rfl
      | bool b => rfl
      | int n => rfl
      | flt q => rfl
      | str s => rfl
      | arr xs => rfl
    | null => rfl
    | bool b => rfl
    | int n => rfl
    | flt q => rfl
    | str s => rfl
    | arr xs => rfl
  | null => rfl
  | bool b => rfl
  | int n => rfl
  | flt q => rfl
  | str s => rfl
  | arr xs => rfl

/-! ## Spec-side characterisations for Layers 4 and 6 -/

theorem failedEndpointTest_iff (kws : List String) (r : RespRec) :
    failedEndpointTest kws r = true ↔
      ((r.status = 401 ∨ r.status = 403 ∨ r.status = 400 ∨
          (r.status = 200 ∧ r.body = "")) ∧
        (strContains (strLower r.url) "api" = true ∨
          ∃ kw ∈ kws, strContains (strLower r.url) (strLower kw) = true)) := by
  unfold failedEndpointTest
  simp only [Bool.and_eq_true, Bool.or_eq_true, List.any_eq_true,
    beq_iff_eq, decide_eq_true_eq]
  tauto

theorem acceptNative_iff (v : JVal) :
    acceptNative v = true ↔
      ∃ fs, v = .obj fs ∧ jTruthy ((jGet fs "error").getD .null) = false := by
  cases v <;> simp [acceptNative]

/-- The per-response encryption test, spelled as a proposition (with the
code's exact conditions: length over 10, `str()` of the sole value, and
only the literal space character excluded). -/
def respEncryptedP (jp : String → Option JVal) (r : RespRec) : Prop :=
  strContains r.content_type "application/json" = true ∧
    ((jp r.body = none ∧ r.body.length > 10 ∧
        (isBase64Alpha (strStrip r.body) = true ∨
          isHexAlpha (strStrip r.body) = true)) ∨
      (∃ kv, jp r.body = some (.obj [kv]) ∧ (pyStr kv.2).length > 30 ∧
        strContains (pyStr kv.2) " " = false))

theorem respEncrypted_iff (jp : String → Option JVal) (r : RespRec) :
    respEncrypted jp r = true ↔ respEncryptedP jp r := by
  unfold respEncrypted respEncryptedP
  cases hjp : jp r.body with
  | none => simp [hjp]
  | some v =>
    cases v with
    | obj fs =>
      cases fs with
      | nil => simp [hjp]
      | cons kv rest =>
        cases rest with
        | nil => simp [hjp]
        | cons kw rest2 => simp [hjp]
    | null => simp [hjp]
    | bool b => simp [hjp]
    | int n => simp [hjp]
    | flt q => simp [hjp]
    | str s => simp [hjp]
    | arr xs => simp [hjp]

/-- `is_encrypted` as the code computes it, in spec form. -/
def amendedEncrypted (jp : String → Option JVal) (cap : CaptureResult) : Prop :=
  ∃ r ∈ cap.responses, respEncryptedP jp r

theorem is_encrypted_iff (jp : String → Option JVal) (cap : CaptureResult) :
    is_encrypted jp cap = true ↔ amendedEncrypted jp cap := by
  unfold is_encrypted amendedEncrypted
  rw [List.any_eq_true]
  constructor
  · rintro ⟨r, hr, ht⟩
    exact ⟨r, hr, (respEncrypted_iff jp r).mp ht⟩
  · rintro ⟨r, hr, ht⟩
    exact ⟨r, hr, (respEncrypted_iff jp r).mpr ht⟩

/-- The encryption detector as the claim words it: no length threshold in
case (i) (tested on the raw body), and in case (ii) the sole value must
be a string with no whitespace at all. -/
def claimEncrypted (jp : String → Option JVal) (cap : CaptureResult) : Bool :=
  cap.responses.any (fun r =>
    strContains r.content_type "application/json" &&
    (((jp r.body).isNone && (isBase64Alpha r.body || isHexAlpha r.body)) ||
     (match jp r.body with
      | some (.obj [kv]) =>
        match kv.2 with
        | .str v => decide (v.length > 30) && !(v.toList.any isWsChar)
        | _ => false
      | _ => false)))

/-! ## Concrete fixtures

Small concrete instantiations of the external-collaborator oracles,
used by the counterexamples and witnesses below. -/

/-- The body `[{"id":1,"title":"x"}]` of the spec's direct-endpoint
scenario. -/
def wpBody : String := "[\x7b\"id\": 1, \"title\": \"x\"\x7d]"

def wpPosts : JVal := .arr [.obj [("id", .int 1), ("title", .str "x")]]

/-- An HTTP world in which only
`https://example.com/wp-json/wp/v2/posts` answers, with a JSON body. -/
def httpC1 (u : String) : Option HttpResp :=
  if u == "https://example.com/wp-json/wp/v2/posts" then
    some { status := 200, contentType := "application/json", body := wpBody }
  else none

def jpC1 (s : String) : Option JVal :=
  if s == wpBody then some wpPosts else none

def emptyCap : CaptureResult :=
  { responses := [], websocket_messages := [], html_content := "" }

def emptyDoc : HtmlDoc := { scripts := [], allTags := [] }

def emptyDom : DomPage := { cards := [], iframeSrcs := [] }

/-- The pipeline environment of the direct-endpoint scenario: the page
itself yields nothing to any layer. -/
def envC1 : Env :=
  { keywords := ["data"], useLLMParser := false, useWebUnlocker := false,
    jp := jpC1, b64 := fun _ => none, rawHtml := fun _ => "",
    parseDoc := fun _ => emptyDoc, parseDom := fun _ => emptyDom,
    parseTables := fun _ => [], capture := some emptyCap,
    nativeNavOk := false, nativeEval := fun _ => .null,
    ajax1 := none, ajax2 := none, llmData := none, unlockerData := none,
    now := 1700000000 }

/-- A card-like element as the HTML parser reports it. -/
def cardL3 : DomCard :=
  { tag := "div", classAttr := some "item", anchorHref := some "http://a",
    anchorTitle := "T", anchorText := "", heading := none, text := "x" }

def domL3 : DomPage := { cards := [cardL3, cardL3, cardL3], iframeSrcs := [] }

def capL3 : CaptureResult :=
  { responses := [], websocket_messages := [],
    html_content := "<div class=item></div>" }

/-- An environment in which Layer 3 (DOM heuristics) succeeds. -/
def envL3 : Env :=
  { keywords := ["data"], useLLMParser := false, useWebUnlocker := false,
    jp := fun _ => none, b64 := fun _ => none, rawHtml := fun _ => "",
    parseDoc := fun _ => emptyDoc, parseDom := fun _ => domL3,
    parseTables := fun _ => [], capture := some capL3,
    nativeNavOk := false, nativeEval := fun _ => .null,
    ajax1 := none, ajax2 := none, llmData := none, unlockerData := none,
    now := 1700000000 }

def ddL3 : DomData := smart_dom_extract capL3.html_content domL3

def recL3 : SaveOutcome :=
  save_data (.dom ddL3) "https://example.com/" "layer3_smart_dom" 1700000000

/-- A script body that is a pure JSON object containing no target
keyword. -/
def scrC2 : String := "\x7b\"a\": 1\x7d"

def jpC2 (s : String) : Option JVal :=
  if s == scrC2 then some (.obj [("a", .int 1)]) else none

def docC2 : HtmlDoc :=
  { scripts := [{ stype := none, sstring := some scrC2 }], allTags := [] }

/-- A keyword-matching JSON response for the network-harvest witness. -/
def respC2w : RespRec :=
  { url := "https://x.com/api", status := 200,
    content_type := "application/json", body := "\x7b\"gold\": 1\x7d" }

def jpC2w (s : String) : Option JVal :=
  if s == respC2w.body then some (.obj [("gold", .int 1)]) else none

/-- A 500-card page for the DOM-heuristic cap witness. -/
def domC4 : DomPage := { cards := List.replicate 500 cardL3, iframeSrcs := [] }

def entryC4 : ArticleEntry :=
  { id := 1, judul := "T", url := "http://a", excerpt := "x" }

/-- A blocked (403) response whose URL contains neither `api` nor a
target keyword. -/
def respC6 : RespRec :=
  { url := "https://x.com/secret", status := 403,
    content_type := "text/html", body := "" }

def capC6 : CaptureResult :=
  { responses := [respC6], websocket_messages := [], html_content := "" }

/-- An in-page fetch that returns a JSON array (valid JSON, no `error`
field). -/
def evC6 (_u : String) : JVal := .arr [.int 1]

/-- An in-page fetch that returns an accepted dict. -/
def evC6w (_u : String) : JVal := .obj [("v", .int 1)]

/-- A gold price table as `extract_html_tables` would shape it. -/
def tableC7 : TableData :=
  { table_index := 0,
    data := [.arr [.str "Satuan", .str "Antam"],
             .arr [.str "1", .str "3.162.000"]] }

def fdC7 : List (String × FoundVal) := [("html_tables_data", .tables [tableC7])]

def gC7 : GoldMap := [("Antam", [("1 Gram", "3.162.000")])]

/-- Pieces of one SSR asset for the quote-table witness. -/
def tfsC8 : List (String × JVal) := [("symbol", .str "NVDA")]

def pfsC8 : List (String × JVal) := [("percentageChange", .flt (51 / 50))]

def dfsC8 : List (String × JVal) :=
  [("lastPriceAndPercentageChange", .obj pfsC8), ("marketCap", .obj [])]

def assetC8 : JVal := .obj [("tileInfo", .obj tfsC8), ("display", .obj dfsC8)]

/-- An asset whose `tileInfo` has no symbol. -/
def assetNoSymC8 : JVal := .obj [("tileInfo", .obj []), ("display", .obj [])]

def contentC8 : JVal :=
  .obj [("props", .obj [("pageProps", .obj [("data", .obj [("assetCategories",
    .arr [.obj [("assetCategoryData", .arr [.obj [("assets",
      .arr [assetC8, assetNoSymC8])]])]])])])])]

def fdC8 : List (String × FoundVal) :=
  [("inline_html_data", .inline [{ itype := "inline_script", content := contentC8 }])]

def recC8 : JVal :=
  mkStockRecord tfsC8 dfsC8 pfsC8 [] (.str "NVDA") (.flt (round4 (51 / 50)))

def mC8 : StockMap := [(.str "NVDA", recC8)]

/-- A JSON-typed response with a short non-JSON base64-alphabet body. -/
def respC9 : RespRec :=
  { url := "https://x.com/api/p", status := 200,
    content_type := "application/json", body := "abc" }

def capC9 : CaptureResult :=
  { responses := [respC9], websocket_messages := [], html_content := "" }

def jpC9 (_s : String) : Option JVal := none

/-- A JSON-typed response with a long non-JSON base64-alphabet body. -/
def respC9b : RespRec :=
  { url := "https://x.com/api/q", status := 200,
    content_type := "application/json",
    body := "QUJDREVGR0hJSksxMjM0NTY3ODkwYWJjZGVm" }

def capC9b : CaptureResult :=
  { responses := [respC9b], websocket_messages := [], html_content := "" }

def filesC10 : List FileEnt :=
  [{ path := "hasil_scrape/a.json", mtime := 10 },
   { path := "hasil_scrape/b.json", mtime := 20 }]

def gmC10 (_pat _p : String) : Bool := true

/-! ## Claim theorems -/

set_option maxRecDepth 4000 in
/-- C1 (counterexample): in the spec's own scenario — only
`https://example.com/wp-json/wp/v2/posts` answers, with the JSON array
`[{"id":1,"title":"x"}]` — the repository's `try_common_endpoints`
would find that array, yet `main` finishes with no result at all: the
pipeline never invokes direct-endpoint probing and never records
`direct-endpoint`. -/
theorem C1_counterexample :
    httpC1 "https://example.com/wp-json/wp/v2/posts" =
      some { status := 200, contentType := "application/json", body := wpBody } ∧
    jpC1 wpBody = some wpPosts ∧
    try_common_endpoints httpC1 jpC1 "https://example.com/" = some wpPosts ∧
    mainRun envC1 "https://example.com/" = .ok none :=
  ⟨rfl, rfl, rfl, rfl⟩

/-- C1 (amended): `try_common_endpoints` probes the base URL and then
each fixed suffix bare and with `?page=1`, in order, returning the first
truthy JSON hit — but `main` never invokes it: no persisted result of
the pipeline ever records the method `direct-endpoint`. -/
theorem C1_direct_probe_never_invoked :
    (∀ http jp base_url,
      try_common_endpoints http jp base_url = directProbeSpec http jp base_url) ∧
    (∀ env url rec, mainRun env url = .ok (some rec) →
      methodOf rec ≠ some (.str "direct-endpoint")) := by
  refine ⟨try_common_endpoints_spec, ?_⟩
  intro env url rec h
  obtain ⟨m, hm, hmem⟩ := mainRun_method env url rec h
  rw [hm]
  intro hc
  have hms : m = "direct-endpoint" := by
    have h2 := Option.some.inj hc
    injection h2
  subst hms
  revert hmem
  decide

set_option maxRecDepth 4000 in
/-- C1 (witness): the pipeline can succeed (here through Layer 3), and
on that run the theorem applies: the recorded method is not
`direct-endpoint`. -/
theorem C1_witness : methodOf recL3 ≠ some (.str "direct-endpoint") :=
  C1_direct_probe_never_invoked.2 envL3 "https://example.com/" recL3 rfl

/-- C2 (counterexample): a pure JSON object in a script body containing
no target keyword is still extracted by `extract_inline_json`; the
function never reads its `target_keywords` argument, so the inline-JSON
strategy does not reject keyword-free blocks. -/
theorem C2_counterexample :
    strContains (strLower scrC2) "gold" = false ∧
    extract_inline_json jpC2 "<html>" docC2 ["gold"] =
      [{ itype := "inline_script", content := .obj [("a", .int 1)] }] :=
  ⟨rfl, rfl⟩

/-- C2 (amended): the network-harvest strategy accepts a captured
response iff its body parses as JSON and some target keyword occurs
case-insensitively in the body or the URL; the inline-JSON extractor,
in contrast, applies no keyword gate at all — its output is independent
of the target keywords. -/
theorem C2_keyword_gate :
    (∀ (jp : String → Option JVal) (kws : List String) resps u,
      (lookupAssoc (findJsonStep1 jp kws resps []) u).isSome ↔
        ∃ r ∈ resps, r.url = u ∧ (jp r.body).isSome ∧ kwRespMatch kws r = true) ∧
    (∀ kws (r : RespRec), kwRespMatch kws r = true ↔
      ∃ kw ∈ kws, strContains (strLower r.body) (strLower kw) = true ∨
        strContains (strLower r.url) (strLower kw) = true) ∧
    (∀ jp html doc kws kws2,
      extract_inline_json jp html doc kws = extract_inline_json jp html doc kws2) := by
  refine ⟨?_, ?_, fun _ _ _ _ _ => rfl⟩
  · intro jp kws resps u
    rw [findJsonStep1_mem]
    simp [lookupAssoc]
  · intro kws r
    unfold kwRespMatch
    rw [List.any_eq_true]
    simp

/-- C2 (witness): the network-harvest gate accepts a keyword-matching
JSON response. -/
theorem C2_witness :
    (lookupAssoc (findJsonStep1 jpC2w ["gold"] [respC2w] []) "https://x.com/api").isSome :=
  (C2_keyword_gate.1 jpC2w ["gold"] [respC2w] "https://x.com/api").mpr
    ⟨respC2w, by simp, rfl, by rw [show jpC2w respC2w.body = some (.obj [("gold", .int 1)]) from rfl]; rfl, rfl⟩

/-- C3 (confirmed): the Layer 1 call passes the keyword `return_raw`,
which `request (url, timeout, proxies, headers)` does not declare, so
the binding raises `TypeError`; the handler swallows it, `main` is the
Layer-2-onward pipeline, and no run ever records
`layer1_ssr_parser`. -/
theorem C3_layer1_always_raises :
    kwargsAccepted requestParams layer1Kwargs = false ∧
    (∀ fetched, callRequestReturnRaw fetched =
      .error "TypeError: unexpected keyword argument return_raw") ∧
    (∀ env url, mainRun env url = mainCore env url) ∧
    (∀ env url rec, mainRun env url = .ok (some rec) →
      methodOf rec ≠ some (.str "layer1_ssr_parser")) := by
  refine ⟨rfl, fun _ => rfl, fun _ _ => rfl, ?_⟩
  intro env url rec h
  obtain ⟨m, hm, hmem⟩ := mainRun_method env url rec h
  rw [hm]
  intro hc
  have hms : m = "layer1_ssr_parser" := by
    have h2 := Option.some.inj hc
    injection h2
  subst hms
  revert hmem
  decide

set_option maxRecDepth 4000 in
/-- C3 (witness): on a run that does persist a result (through Layer 3),
the recorded method is not `layer1_ssr_parser`. -/
theorem C3_witness : methodOf recL3 ≠ some (.str "layer1_ssr_parser") :=
  C3_layer1_always_raises.2.2.2 envL3 "https://example.com/" recL3 rfl

/-- C4 (confirmed): for every HTML input, the DOM-heuristic extractor
emits at most 100 article entries (the candidate list is truncated at
100 before extraction), and every emitted entry carries a text excerpt
truncated to at most 100 characters. -/
theorem C4_dom_cap (html : String) (dom : DomPage) :
    (smart_dom_extract html dom).articles.length ≤ 100 ∧
    ∀ a ∈ (smart_dom_extract html dom).articles, a.excerpt.length ≤ 100 := by
  constructor
  · unfold smart_dom_extract
    split
    · simp
    · refine le_trans (List.length_filterMap_le _ _) ?_
      rw [List.enum_length]
      exact List.length_take_le _ _
  · intro a ha
    unfold smart_dom_extract at ha
    split at ha
    · simp at ha
    · simp only [List.mem_filterMap] at ha
      obtain ⟨p, hp, hba⟩ := ha
      exact buildArticleEntry_excerpt_le _ _ _ hba

set_option maxRecDepth 4000 in
/-- C4 (witness): on a synthetic page with 500 card-like elements the
cap and the excerpt bound hold, instantiated at the first extracted
entry. -/
theorem C4_witness :
    (smart_dom_extract "<p>" domC4).articles.length ≤ 100 ∧
    entryC4.excerpt.length ≤ 100 :=
  ⟨(C4_dom_cap "<p>" domC4).1,
   (C4_dom_cap "<p>" domC4).2 entryC4
     (List.mem_of_mem_head? (Option.mem_def.mpr rfl))⟩

/-- C5 (confirmed): the CAPTCHA branch never halts the pipeline: the
external solver unconditionally returns `None`, its result is
discarded, and `main` computes exactly what it would compute with the
CAPTCHA-handling block removed — detection by itself can never change
the outcome, and it is never raised as an exception. -/
theorem C5_captcha_failsoft :
    (∀ h u t, solve_captcha_external h u t = none) ∧
    (∀ env url, mainRun env url = mainRunSansCaptcha env url) :=
  ⟨fun _ _ _ => rfl, fun _ _ => rfl⟩

/-- C6 (counterexample): a captured 403 endpoint whose URL contains
neither `api` nor a target keyword is NOT collected for native-fetch
replay, and a replayed response that is a JSON array (valid JSON with no
`error` field) is NOT accepted — both contradicting the claim's
"exactly"/"iff". -/
theorem C6_counterexample :
    respC6.status = 403 ∧
    collectFailed ["gold"] capC6 = [] ∧
    evC6 "https://x.com/data" = .arr [.int 1] ∧
    native_browser_fetch true evC6 ["https://x.com/data"] = [] :=
  ⟨rfl, rfl, rfl, rfl⟩

/-- C6 (amended): an endpoint is collected for replay iff its response
had status 401/403/400 or an empty 200 body AND its URL contains `api`
or a target keyword (case-insensitively); at most 5 unique endpoints are
replayed; a replayed response is accepted iff it is a JSON object whose
`error` field is absent or falsy. -/
theorem C6_native_replay :
    (∀ kws cap u, u ∈ collectFailed kws cap ↔
      ∃ r ∈ cap.responses, r.url = u ∧
        ((r.status = 401 ∨ r.status = 403 ∨ r.status = 400 ∨
            (r.status = 200 ∧ r.body = "")) ∧
          (strContains (strLower r.url) "api" = true ∨
            ∃ kw ∈ kws, strContains (strLower r.url) (strLower kw) = true))) ∧
    (∀ l : List String, ((dedupFirst l).take 5).length ≤ 5) ∧
    (∀ navOk evalFetch eps ep,
      (lookupAssoc (native_browser_fetch navOk evalFetch eps) ep).isSome ↔
        (navOk = true ∧ ep ∈ eps ∧
          ∃ fs, evalFetch ep = .obj fs ∧
            jTruthy ((jGet fs "error").getD .null) = false)) := by
  refine ⟨?_, fun l => List.length_take_le _ _, ?_⟩
  · intro kws cap u
    rw [collectFailed_mem]
    constructor
    · rintro ⟨r, hr, hu, ht⟩
      exact ⟨r, hr, hu, (failedEndpointTest_iff kws r).mp ht⟩
    · rintro ⟨r, hr, hu, ht⟩
      exact ⟨r, hr, hu, (failedEndpointTest_iff kws r).mpr ht⟩
  · intro navOk evalFetch eps ep
    rw [native_browser_fetch_mem]
    constructor
    · rintro ⟨h1, h2, h3⟩
      exact ⟨h1, h2, (acceptNative_iff _).mp h3⟩
    · rintro ⟨h1, h2, h3⟩
      exact ⟨h1, h2, (acceptNative_iff _).mpr h3⟩

/-- C6 (witness): a dict result with no `error` field is accepted by the
replay. -/
theorem C6_witness :
    (lookupAssoc (native_browser_fetch true evC6w ["e"]) "e").isSome :=
  (C6_native_replay.2.2 true evC6w ["e"] "e").mpr
    ⟨rfl, by simp, [("v", .int 1)], rfl, rfl⟩

/-- C7 (confirmed): the price-table normalizer is a pure function of its
input — its embedding is a total function, so two runs on the same
payload are identical — and it returns `None` exactly when the collected
map is empty (never an error, never an empty result). -/
theorem C7_gold_normalizer_pure (fd : List (String × FoundVal)) :
    structure_gold_data fd = structure_gold_data fd ∧
    (∀ g, structure_gold_data fd = some g → g ≠ []) ∧
    (structure_gold_data fd = none ↔ (goldCollected fd).isEmpty = true) := by
  refine ⟨rfl, ?_, ?_⟩
  · intro g hg
    unfold structure_gold_data at hg
    split at hg
    · exact Option.noConfusion hg
    · next hne =>
      rw [← Option.some.inj hg]
      intro hnil
      exact hne (by rw [hnil]; rfl)
  · unfold structure_gold_data
    split
    · next he => simp [he]
    · next he => simp [he]

/-- C7 (witness): on a concrete gold table the normalizer recognises a
provider map and the theorem yields its non-emptiness. -/
theorem C7_witness : structure_gold_data fdC7 = some gC7 ∧ gC7 ≠ [] :=
  ⟨rfl, (C7_gold_normalizer_pure fdC7).2.1 gC7 rfl⟩

/-- C8 (confirmed): every record emitted by the quote-table normalizer
has its `percentageChange` field rounded to 4 decimal places (an int, or
a float that is an exact multiple of 1/10000), and an asset whose
`tileInfo` lacks a truthy symbol is skipped silently: the map is
unchanged and no error is raised. -/
theorem C8_stock_rounding_and_skip :
    (∀ fd m, structure_stock_data fd = .ok (some m) →
      ∀ kv ∈ m, pcRounded kv.2) ∧
    (∀ a st, (∀ sym, assetSymbol a = some sym → jTruthy sym = false) →
      processAsset a st = st) :=
  ⟨fun fd m h kv hkv => structure_stock_data_inv fd m h kv hkv,
   processAsset_skip⟩

/-- C8 (witness): a concrete SSR payload with one good asset and one
symbol-less asset; the emitted NVDA record is rounded and the
symbol-less asset contributes nothing. -/
theorem C8_witness :
    structure_stock_data fdC8 = .ok (some mC8) ∧
    pcRounded recC8 ∧
    processAsset assetNoSymC8 mC8 = mC8 :=
  ⟨rfl,
   C8_stock_rounding_and_skip.1 fdC8 mC8 rfl (.str "NVDA", recC8)
     (List.mem_singleton.mpr rfl),
   C8_stock_rounding_and_skip.2 assetNoSymC8 mC8
     (fun sym hs => by
       rw [show assetSymbol assetNoSymC8 = some (.str "") from rfl] at hs
       exact (Option.some.inj hs) ▸ rfl)⟩

/-- C9 (counterexample): a JSON-typed response whose body `abc` fails
parsing and is pure base64 alphabet satisfies the claim's detector, but
`is_encrypted` returns false — the code additionally requires the body
to be longer than 10 characters. -/
theorem C9_counterexample :
    respC9.body = "abc" ∧
    isBase64Alpha respC9.body = true ∧
    claimEncrypted jpC9 capC9 = true ∧
    is_encrypted jpC9 capC9 = false :=
  ⟨rfl, rfl, rfl, rfl⟩

/-- C9 (amended): `is_encrypted` returns true iff some captured
JSON-typed response either fails strict parsing with a body longer than
10 characters that is pure base64 or pure hex alphabet, or parses to a
one-key object whose sole value stringifies to more than 30 characters
containing no space character. -/
theorem C9_encryption_detector (jp : String → Option JVal)
    (cap : CaptureResult) :
    is_encrypted jp cap = true ↔ amendedEncrypted jp cap :=
  is_encrypted_iff jp cap

/-- C9 (witness): a 36-character base64-alphabet non-JSON body is
detected, and the theorem transports that to the spec-side predicate. -/
theorem C9_witness : amendedEncrypted jpC9 capC9b :=
  (C9_encryption_detector jpC9 capC9b).mp rfl

/-- C10 (counterexample): the envelope written by `save_data` records the
technique under the key `extraction_method`; neither `method` nor
`technique_used` exists in its metadata. -/
theorem C10_counterexample :
    lookupAssoc (save_data (.llm .null) "https://example.com/x"
      "layer5_5_ai_llm" 1700000000).metadata "method" = none ∧
    lookupAssoc (save_data (.llm .null) "https://example.com/x"
      "layer5_5_ai_llm" 1700000000).metadata "technique_used" = none ∧
    lookupAssoc (save_data (.llm .null) "https://example.com/x"
      "layer5_5_ai_llm" 1700000000).metadata "extraction_method" =
      some (.str "layer5_5_ai_llm") :=
  ⟨rfl, rfl, rfl⟩

/-- C10 (amended): persisted files are named
`hasil_scrape/<domain-slug>_<method>_<epoch>.json`; the envelope's
metadata carries the source URL under `source`, the technique under
`extraction_method` (not `method`/`technique_used`), and the integer
epoch timestamp under `timestamp`; and `get_latest_file` returns a
glob-matching file of maximal modification time. -/
theorem C10_persistence_format :
    (∀ d u m t,
      (save_data d u m t).filename =
        "hasil_scrape/" ++ domainSlug u ++ "_" ++ m ++ "_" ++ toString t ++ ".json" ∧
      lookupAssoc (save_data d u m t).metadata "source" = some (.str u) ∧
      lookupAssoc (save_data d u m t).metadata "extraction_method" = some (.str m) ∧
      lookupAssoc (save_data d u m t).metadata "timestamp" = some (.int t) ∧
      lookupAssoc (save_data d u m t).metadata "method" = none ∧
      lookupAssoc (save_data d u m t).metadata "technique_used" = none) ∧
    (∀ globMatch files pattern p,
      get_latest_file globMatch files pattern = some p →
      ∃ f ∈ files, globMatch pattern f.path = true ∧ f.path = p ∧
        ∀ g ∈ files, globMatch pattern g.path = true → g.mtime ≤ f.mtime) :=
  ⟨fun _ _ _ _ => ⟨rfl, rfl, rfl, rfl, rfl, rfl⟩, get_latest_file_is_max⟩

/-- C10 (witness): on two matching files the lookup returns the one with
the larger mtime. -/
theorem C10_witness :
    ∃ f ∈ filesC10, gmC10 "hasil_scrape/*_stocks_*.json" f.path = true ∧
      f.path = "hasil_scrape/b.json" ∧
      ∀ g ∈ filesC10, gmC10 "hasil_scrape/*_stocks_*.json" g.path = true →
        g.mtime ≤ f.mtime :=
  C10_persistence_format.2 gmC10 filesC10 "hasil_scrape/*_stocks_*.json"
    "hasil_scrape/b.json" rfl

end AutoScrape
